import Mathlib

/-!
# Verification of `grafana-azure-sdk-go`: settings from the environment and the
# workload-identity token retriever

Shallow embedding of

* `azsettings/env.go` (`ReadFromEnv`, `WriteToEnvStr`),
* `aztokenprovider/retriever_workloadidentity.go`
  (`getWorkloadIdentityTokenRetriever`, `GetCacheKey`, `Init`, `GetAccessToken`).

Conventions of the embedding.

* A Go `string` is a Lean `String`; `fmt.Sprintf` with `%s` verbs on string
  arguments is concatenation of the format pieces and the arguments.
* A Go pointer `*T` is an `Option T`, `nil` being `none`; dereferencing `nil`
  panics, and a function that may panic returns an `Option` whose `none` is the
  panic.
* A method with a pointer receiver takes the receiver and returns, next to its
  results, the receiver as the method leaves it.
* A Go result pair `(*T, error)` is a pair `Option T × Option E`.
* Calls into the Azure SDK (`azidentity.NewWorkloadIdentityCredential`,
  `azcore.TokenCredential.GetToken`) act on an explicit world `W`: they take the
  world before the call and return the world after it.
-/

namespace azsettings

/-- The struct `WorkloadIdentitySettings` of package `azsettings`, with the fields
the sources read and write. -/
structure WorkloadIdentitySettings where
  TenantId : String
  ClientId : String
  TokenFile : String
deriving DecidableEq, Repr

/-- The struct `TokenEndpointSettings` of package `azsettings`, with the fields
`ReadFromEnv` fills. -/
structure TokenEndpointSettings where
  TokenUrl : String
  ClientId : String
  ClientSecret : String
  UsernameAssertion : Bool
deriving DecidableEq, Repr

/-- The struct `AzureSettings` of package `azsettings`, with the fields the sources
read and write; a fresh `&AzureSettings{}` has every field at its zero value. -/
structure AzureSettings where
  Cloud : String
  ManagedIdentityEnabled : Bool
  ManagedIdentityClientId : String
  WorkloadIdentityEnabled : Bool
  WorkloadIdentitySettings : Option WorkloadIdentitySettings
  UserIdentityEnabled : Bool
  UserIdentityTokenEndpoint : Option TokenEndpointSettings
deriving DecidableEq, Repr

def AzureCloud : String := "GFAZPL_AZURE_CLOUD"

def ManagedIdentityEnabled : String := "GFAZPL_MANAGED_IDENTITY_ENABLED"
def ManagedIdentityClientID : String := "GFAZPL_MANAGED_IDENTITY_CLIENT_ID"

def WorkloadIdentityEnabled : String := "GFAZPL_WORKLOAD_IDENTITY_ENABLED"
def WorkloadIdentityTenantID : String := "GFAZPL_WORKLOAD_IDENTITY_TENANT_ID"
def WorkloadIdentityClientID : String := "GFAZPL_WORKLOAD_IDENTITY_CLIENT_ID"
def WorkloadIdentityTokenFile : String := "GFAZPL_WORKLOAD_IDENTITY_TOKEN_FILE"

def UserIdentityEnabled : String := "GFAZPL_USER_IDENTITY_ENABLED"
def UserIdentityTokenURL : String := "GFAZPL_USER_IDENTITY_TOKEN_URL"
def UserIdentityClientID : String := "GFAZPL_USER_IDENTITY_CLIENT_ID"
def UserIdentityClientSecret : String := "GFAZPL_USER_IDENTITY_CLIENT_SECRET"
def UserIdentityAssertion : String := "GFAZPL_USER_IDENTITY_ASSERTION"

def fallbackAzureCloud : String := "AZURE_CLOUD"
def fallbackManagedIdentityEnabled : String := "AZURE_MANAGED_IDENTITY_ENABLED"
def fallbackManagedIdentityClientId : String := "AZURE_MANAGED_IDENTITY_CLIENT_ID"

/-- The functions of the helper package `azsettings/internal/envutil` that
`ReadFromEnv` calls, as they answer in the environment of the process. They belong
to the internal helper package and are not embedded here: `ReadFromEnv` takes them
as a parameter, and `E` is the type of the errors they report. A Go result `(v, err)` of which the caller
reads `v` only when `err` is `nil` is an `Except E _`. -/
structure Envutil (E : Type) where
  Get : String → Except E String
  GetOrDefault : String → String → String
  GetOrFallback : String → String → String → String
  GetBoolOrDefault : String → Bool → Except E Bool
  GetBoolOrFallback : String → String → Bool → Except E Bool

/-- The errors `ReadFromEnv` builds: `fmt.Errorf(format, err)` with a format ending
in `%w`, which wraps the error `err`. -/
inductive Error (E : Type) where
  | Errorf (format : String) (err : E)
deriving DecidableEq, Repr

/-- The function `ReadFromEnv`. `AzurePublic` is the constant of that name of
package `azsettings`, declared in another file of the package and taken as a
parameter. The result is the pair `(*AzureSettings, error)`. -/
def ReadFromEnv {E : Type} (envutil : Envutil E) (AzurePublic : String) :
    Option AzureSettings × Option (Error E) :=
  let azureSettings : AzureSettings := ⟨"", false, "", false, none, false, none⟩
  let azureSettings := { azureSettings with
    Cloud := envutil.GetOrFallback AzureCloud fallbackAzureCloud AzurePublic }
  -- Managed Identity authentication
  match envutil.GetBoolOrFallback ManagedIdentityEnabled fallbackManagedIdentityEnabled false with
  | .error err => (none, some (.Errorf "invalid Azure configuration: %w" err))
  | .ok msiEnabled =>
    let azureSettings :=
      if msiEnabled then
        { azureSettings with
          ManagedIdentityEnabled := true
          ManagedIdentityClientId :=
            envutil.GetOrFallback ManagedIdentityClientID fallbackManagedIdentityClientId "" }
      else azureSettings
    -- Workload Identity authentication
    match envutil.GetBoolOrDefault WorkloadIdentityEnabled false with
    | .error err => (none, some (.Errorf "invalid Azure configuration: %w" err))
    | .ok wiEnabled =>
      let azureSettings :=
        if wiEnabled then
          let wiSettings : WorkloadIdentitySettings := ⟨"", "", ""⟩
          let wiSettings := { wiSettings with
            TenantId := envutil.GetOrDefault WorkloadIdentityTenantID "" }
          let wiSettings := { wiSettings with
            ClientId := envutil.GetOrDefault WorkloadIdentityClientID "" }
          let wiSettings := { wiSettings with
            TokenFile := envutil.GetOrDefault WorkloadIdentityTokenFile "" }
          { azureSettings with
            WorkloadIdentityEnabled := true
            WorkloadIdentitySettings := some wiSettings }
        else azureSettings
      -- User Identity authentication
      match envutil.GetBoolOrDefault UserIdentityEnabled false with
      | .error err => (none, some (.Errorf "invalid Azure configuration: %w" err))
      | .ok userIdentityEnabled =>
        if userIdentityEnabled then
          match envutil.Get UserIdentityTokenURL with
          | .error err =>
            (none, some (.Errorf
              "token URL must be set when user identity authentication enabled: %w" err))
          | .ok tokenUrl =>
            match envutil.Get UserIdentityClientID with
            | .error err =>
              (none, some (.Errorf
                "client ID must be set when user identity authentication enabled: %w" err))
            | .ok clientId =>
              let clientSecret := envutil.GetOrDefault UserIdentityClientSecret ""
              let assertion := envutil.GetOrDefault UserIdentityAssertion ""
              let usernameAssertion : Bool := assertion == "username"
              (some { azureSettings with
                  UserIdentityEnabled := true
                  UserIdentityTokenEndpoint :=
                    some ⟨tokenUrl, clientId, clientSecret, usernameAssertion⟩ },
                none)
        else (some azureSettings, none)

/-- The function `WriteToEnvStr`; `fmt.Sprintf("%s=%s", name, value)` is
`name ++ "=" ++ value`, and `var envs []string` starts empty. -/
def WriteToEnvStr (azureSettings : Option AzureSettings) : List String :=
  let envs : List String := []
  match azureSettings with
  | none => envs
  | some azureSettings =>
    let envs :=
      if azureSettings.Cloud ≠ "" then envs ++ [AzureCloud ++ "=" ++ azureSettings.Cloud]
      else envs
    let envs :=
      if azureSettings.ManagedIdentityEnabled then
        let envs := envs ++ [ManagedIdentityEnabled ++ "=true"]
        if azureSettings.ManagedIdentityClientId ≠ "" then
          envs ++ [ManagedIdentityClientID ++ "=" ++ azureSettings.ManagedIdentityClientId]
        else envs
      else envs
    let envs :=
      if azureSettings.WorkloadIdentityEnabled then
        let envs := envs ++ [WorkloadIdentityEnabled ++ "=true"]
        match azureSettings.WorkloadIdentitySettings with
        | some wiSettings =>
          let envs :=
            if wiSettings.TenantId ≠ "" then
              envs ++ [WorkloadIdentityTenantID ++ "=" ++ wiSettings.TenantId]
            else envs
          let envs :=
            if wiSettings.ClientId ≠ "" then
              envs ++ [WorkloadIdentityClientID ++ "=" ++ wiSettings.ClientId]
            else envs
          if wiSettings.TokenFile ≠ "" then
            envs ++ [WorkloadIdentityTokenFile ++ "=" ++ wiSettings.TokenFile]
          else envs
        | none => envs
      else envs
    if azureSettings.UserIdentityEnabled then
      let envs := envs ++ [UserIdentityEnabled ++ "=true"]
      match azureSettings.UserIdentityTokenEndpoint with
      | some tokenEndpoint =>
        let envs :=
          if tokenEndpoint.TokenUrl ≠ "" then
            envs ++ [UserIdentityTokenURL ++ "=" ++ tokenEndpoint.TokenUrl]
          else envs
        let envs :=
          if tokenEndpoint.ClientId ≠ "" then
            envs ++ [UserIdentityClientID ++ "=" ++ tokenEndpoint.ClientId]
          else envs
        let envs :=
          if tokenEndpoint.ClientSecret ≠ "" then
            envs ++ [UserIdentityClientSecret ++ "=" ++ tokenEndpoint.ClientSecret]
          else envs
        if tokenEndpoint.UsernameAssertion then
          envs ++ [UserIdentityAssertion ++ "=username"]
        else envs
      | none => envs
    else envs

/-! ### The environment and the helper package -/

/-- The errors of the model of the helper package. -/
inductive EnvError where
  | missing (key : String)
  | invalid (key : String) (value : String)
deriving DecidableEq, Repr

/-- The function `os.Getenv` of the Go library over an environment `env`, which
answers `some v` for a variable set to `v` and `none` for a variable that is not
set: the value of the variable, and the empty string when it is not set. -/
def Getenv (env : String → Option String) (key : String) : String :=
  (env key).getD ""

/-- Modelled from the spec: the functions of the helper package
`azsettings/internal/envutil`, whose source is absent, over an environment `env`.
An optional string of the data model is unset when it is empty (`GetCacheKey`,
`Init` and `WriteToEnvStr` all test a field against `""`), and `os.Getenv` does not
tell a variable that is not set from one set to the empty string: a variable counts
as set when its value is not empty. `Get` answers the value of a variable and fails
when it is not set; `GetOrDefault` answers the value of a variable, or the default
when it is not set; `GetOrFallback` answers the value of the variable when it is
set, else the value of the fallback variable when that is set, else the default;
`GetBoolOrDefault` and `GetBoolOrFallback` find the value in the same way, parse it
as a boolean with `ParseBool` and fail when it does not parse. -/
def envutilOf (env : String → Option String) (ParseBool : String → Option Bool) :
    Envutil EnvError where
  Get key :=
    let strValue := Getenv env key
    if strValue = "" then .error (.missing key) else .ok strValue
  GetOrDefault key defaultValue :=
    let strValue := Getenv env key
    if strValue = "" then defaultValue else strValue
  GetOrFallback key fallbackKey defaultValue :=
    let strValue := Getenv env key
    if strValue ≠ "" then strValue
    else
      let strValue := Getenv env fallbackKey
      if strValue ≠ "" then strValue else defaultValue
  GetBoolOrDefault key defaultValue :=
    let strValue := Getenv env key
    if strValue = "" then .ok defaultValue
    else
      match ParseBool strValue with
      | some value => .ok value
      | none => .error (.invalid key strValue)
  GetBoolOrFallback key fallbackKey defaultValue :=
    let strValue := Getenv env key
    if strValue ≠ "" then
      match ParseBool strValue with
      | some value => .ok value
      | none => .error (.invalid key strValue)
    else
      let strValue := Getenv env fallbackKey
      if strValue ≠ "" then
        match ParseBool strValue with
        | some value => .ok value
        | none => .error (.invalid fallbackKey strValue)
      else .ok defaultValue

/-- The function `strconv.ParseBool` of the Go library, a parser of booleans on
which the model is evaluated. -/
def ParseBool (str : String) : Option Bool :=
  if str ∈ ["1", "t", "T", "TRUE", "true", "True"] then some true
  else if str ∈ ["0", "f", "F", "FALSE", "false", "False"] then some false
  else none

/-- The name of an entry `NAME=value`: what stands before the first `=`. -/
def entryName (entry : String) : String :=
  ⟨entry.data.takeWhile (fun ch => ch != '=')⟩

/-- The value of an entry `NAME=value`: what stands after the first `=`. -/
def entryValue (entry : String) : String :=
  ⟨(entry.data.dropWhile (fun ch => ch != '=')).drop 1⟩

/-- The environment that contains exactly the entries `NAME=value` of a list: a
variable is set when an entry has its name, and its value is the value of the first
such entry. -/
def envOfEntries (envs : List String) (name : String) : Option String :=
  (envs.map (fun entry => (entryName entry, entryValue entry))).lookup name

/-- Whether a string starts with another one. -/
def startsWith (s start : String) : Bool :=
  start.data.isPrefixOf s.data

/-- The names `WriteToEnvStr` can emit, in the order in which it emits them. -/
def writtenNames : List String :=
  [AzureCloud, ManagedIdentityEnabled, ManagedIdentityClientID, WorkloadIdentityEnabled,
    WorkloadIdentityTenantID, WorkloadIdentityClientID, WorkloadIdentityTokenFile,
    UserIdentityEnabled, UserIdentityTokenURL, UserIdentityClientID,
    UserIdentityClientSecret, UserIdentityAssertion]

/-- The value of a string field that is written only when it is not empty. -/
def nonEmpty (value : String) : Option String :=
  if value ≠ "" then some value else none

/-- The table of `WriteToEnvStr`: for each name of `writtenNames`, the value the
function emits for given settings, or `none` when it emits no entry of that name.
The proofs relate the function to this table. -/
def writtenSlots (s : AzureSettings) : List (String × Option String) :=
  [(AzureCloud, nonEmpty s.Cloud),
   (ManagedIdentityEnabled, if s.ManagedIdentityEnabled then some "true" else none),
   (ManagedIdentityClientID,
     if s.ManagedIdentityEnabled then nonEmpty s.ManagedIdentityClientId else none),
   (WorkloadIdentityEnabled, if s.WorkloadIdentityEnabled then some "true" else none),
   (WorkloadIdentityTenantID,
     if s.WorkloadIdentityEnabled then
       s.WorkloadIdentitySettings.bind (fun wi => nonEmpty wi.TenantId) else none),
   (WorkloadIdentityClientID,
     if s.WorkloadIdentityEnabled then
       s.WorkloadIdentitySettings.bind (fun wi => nonEmpty wi.ClientId) else none),
   (WorkloadIdentityTokenFile,
     if s.WorkloadIdentityEnabled then
       s.WorkloadIdentitySettings.bind (fun wi => nonEmpty wi.TokenFile) else none),
   (UserIdentityEnabled, if s.UserIdentityEnabled then some "true" else none),
   (UserIdentityTokenURL,
     if s.UserIdentityEnabled then
       s.UserIdentityTokenEndpoint.bind (fun ep => nonEmpty ep.TokenUrl) else none),
   (UserIdentityClientID,
     if s.UserIdentityEnabled then
       s.UserIdentityTokenEndpoint.bind (fun ep => nonEmpty ep.ClientId) else none),
   (UserIdentityClientSecret,
     if s.UserIdentityEnabled then
       s.UserIdentityTokenEndpoint.bind (fun ep => nonEmpty ep.ClientSecret) else none),
   (UserIdentityAssertion,
     if s.UserIdentityEnabled then
       s.UserIdentityTokenEndpoint.bind
         (fun ep => if ep.UsernameAssertion then some "username" else none)
     else none)]

/-- The entries of a table of names and optional values: `NAME=value` for each name
that has a value, in the order of the table. -/
def slotEntries : List (String × Option String) → List String
  | [] => []
  | (name, some value) :: slots => (name ++ "=" ++ value) :: slotEntries slots
  | (_, none) :: slots => slotEntries slots

end azsettings

namespace policy

/-- The struct `policy.TokenRequestOptions` of the Azure SDK, with the one field
`GetAccessToken` sets; the other fields stay at their zero values. -/
structure TokenRequestOptions where
  Scopes : List String
deriving DecidableEq, Repr

end policy

namespace azcore

/-- The struct `azcore.AccessToken` of the Azure SDK, with the fields
`GetAccessToken` reads; `Time` stands for `time.Time`. -/
structure AccessToken (Time : Type) where
  Token : String
  ExpiresOn : Time
deriving DecidableEq, Repr

/-- A value of the interface `azcore.TokenCredential`: its method `GetToken`, which
takes the context and the options and acts on the world. -/
structure TokenCredential (Ctx Err Time W : Type) where
  GetToken : Ctx → policy.TokenRequestOptions → W → Except Err (AccessToken Time) × W

end azcore

namespace azidentity

/-- The struct `azidentity.WorkloadIdentityCredentialOptions` of the Azure SDK, with
the fields `Init` sets; the other fields stay at their zero values. -/
structure WorkloadIdentityCredentialOptions where
  TenantID : String
  ClientID : String
  TokenFilePath : String
deriving DecidableEq, Repr

end azidentity

namespace aztokenprovider

/-- The struct `workloadIdentityTokenRetriever`; `Cred` is the type of the values of
the interface `azcore.TokenCredential`, and an unset `credential` is `none`. -/
structure workloadIdentityTokenRetriever (Cred : Type) where
  tenantId : String
  clientId : String
  tokenFile : String
  credential : Option Cred

/-- The method `GetCacheKey`: the key, and the receiver as the method leaves it. -/
def GetCacheKey {Cred : Type} (c : workloadIdentityTokenRetriever Cred) :
    String × workloadIdentityTokenRetriever Cred :=
  let tenantId := c.tenantId
  let tenantId := if tenantId = "" then "default" else tenantId
  let clientId := c.clientId
  let clientId := if clientId = "" then "default" else clientId
  ("azure|wi|" ++ tenantId ++ "|" ++ clientId, c)

/-- The struct `AccessToken` of package `aztokenprovider`. -/
structure AccessToken (Time : Type) where
  Token : String
  ExpiresOn : Time
deriving DecidableEq, Repr

/-- The function `getWorkloadIdentityTokenRetriever`; `Creds` stands for
`azcredentials.AzureWorkloadIdentityCredentials`. Reading a field of a `nil`
`settings` panics. -/
def getWorkloadIdentityTokenRetriever {Cred Creds : Type}
    (settings : Option azsettings.AzureSettings) (_credentials : Option Creds) :
    Option (workloadIdentityTokenRetriever Cred) :=
  match settings with
  | none => none
  | some settings =>
    let tenantId := ""
    let clientId := ""
    let tokenFile := ""
    let (tenantId, clientId, tokenFile) :=
      match settings.WorkloadIdentitySettings with
      | some wiSettings => (wiSettings.TenantId, wiSettings.ClientId, wiSettings.TokenFile)
      | none => (tenantId, clientId, tokenFile)
    some ⟨tenantId, clientId, tokenFile, none⟩

/-- The method `Init`. `NewWorkloadIdentityCredential` is the constructor of that
name of `azidentity`, acting on the world. The result is the returned `error`, the
receiver as the method leaves it, and the world. -/
def Init {Cred Err W : Type}
    (NewWorkloadIdentityCredential :
      azidentity.WorkloadIdentityCredentialOptions → W → Except Err Cred × W)
    (c : workloadIdentityTokenRetriever Cred) (w : W) :
    Option Err × workloadIdentityTokenRetriever Cred × W :=
  let options : azidentity.WorkloadIdentityCredentialOptions := ⟨"", "", ""⟩
  let options := if c.tenantId ≠ "" then { options with TenantID := c.tenantId } else options
  let options := if c.clientId ≠ "" then { options with ClientID := c.clientId } else options
  let options :=
    if c.tokenFile ≠ "" then { options with TokenFilePath := c.tokenFile } else options
  match NewWorkloadIdentityCredential options w with
  | (.error err, w) => (some err, c, w)
  | (.ok credential, w) => (none, { c with credential := some credential }, w)

/-- The method `GetAccessToken`. Calling `GetToken` on a `nil` credential panics
(`none`). Otherwise the result is the pair `(*AccessToken, error)`, the receiver as
the method leaves it, and the world. -/
def GetAccessToken {Ctx Err Time W : Type}
    (c : workloadIdentityTokenRetriever (azcore.TokenCredential Ctx Err Time W))
    (ctx : Ctx) (scopes : List String) (w : W) :
    Option ((Option (AccessToken Time) × Option Err) ×
      workloadIdentityTokenRetriever (azcore.TokenCredential Ctx Err Time W) × W) :=
  match c.credential with
  | none => none
  | some credential =>
    match credential.GetToken ctx ⟨scopes⟩ w with
    | (.error err, w) => some ((none, some err), c, w)
    | (.ok accessToken, w) =>
      some ((some ⟨accessToken.Token, accessToken.ExpiresOn⟩, none), c, w)

/-- A call made on a retriever during its life: `Init()` or
`GetAccessToken(ctx, scopes)`. -/
inductive Call (Ctx : Type) where
  | Init
  | GetAccessToken (ctx : Ctx) (scopes : List String)

/-- A sequence of calls made one after the other on the same retriever, each on the
retriever and the world the previous one left; the results of the calls are dropped,
and a call that panics ends the run with the retriever as the previous call left
it. -/
def runCalls {Ctx Err Time W : Type}
    (NewWorkloadIdentityCredential : azidentity.WorkloadIdentityCredentialOptions → W →
      Except Err (azcore.TokenCredential Ctx Err Time W) × W) :
    List (Call Ctx) → workloadIdentityTokenRetriever (azcore.TokenCredential Ctx Err Time W) →
      W → workloadIdentityTokenRetriever (azcore.TokenCredential Ctx Err Time W) × W
  | [], c, w => (c, w)
  | Call.Init :: calls, c, w =>
    match Init NewWorkloadIdentityCredential c w with
    | (_, c, w) => runCalls NewWorkloadIdentityCredential calls c w
  | Call.GetAccessToken ctx scopes :: calls, c, w =>
    match GetAccessToken c ctx scopes w with
    | none => (c, w)
    | some (_, c, w) => runCalls NewWorkloadIdentityCredential calls c w

end aztokenprovider

/-! ## Concrete instances on which the definitions are evaluated -/

namespace azsettings

/-- An instance of the helper functions over a list of `(name, value)` entries, on
which `ReadFromEnv` is evaluated at concrete environments: a name counts as set when
the list has an entry for it, and a flag parses when its value is `true` or
`false`. -/
def listEnvutil (env : List (String × String)) : Envutil String where
  Get key :=
    match env.lookup key with
    | some v => .ok v
    | none => .error ("missing " ++ key)
  GetOrDefault key defaultValue := (env.lookup key).getD defaultValue
  GetOrFallback key fallbackKey defaultValue :=
    match env.lookup key with
    | some v => v
    | none => (env.lookup fallbackKey).getD defaultValue
  GetBoolOrDefault key defaultValue :=
    match env.lookup key with
    | some "true" => .ok true
    | some "false" => .ok false
    | some _ => .error ("invalid " ++ key)
    | none => .ok defaultValue
  GetBoolOrFallback key fallbackKey defaultValue :=
    match (env.lookup key).orElse (fun _ => env.lookup fallbackKey) with
    | some "true" => .ok true
    | some "false" => .ok false
    | some _ => .error ("invalid " ++ key)
    | none => .ok defaultValue

end azsettings

namespace aztokenprovider

/-- A credential whose `GetToken` fails on an empty scope list and otherwise
answers the token `tok` expiring at 100; the world is the log of the calls made. -/
def logCredential :
    azcore.TokenCredential Unit String Nat (List policy.TokenRequestOptions) where
  GetToken _ options w :=
    (if options.Scopes = [] then .error "no scopes" else .ok ⟨"tok", 100⟩, w ++ [options])

/-- A constructor that fails when no token file is given and otherwise answers
`logCredential`; the world is the log of the options it received. -/
def logNewCredential (options : azidentity.WorkloadIdentityCredentialOptions)
    (w : List azidentity.WorkloadIdentityCredentialOptions) :
    Except String (azcore.TokenCredential Unit String Nat (List policy.TokenRequestOptions)) ×
      List azidentity.WorkloadIdentityCredentialOptions :=
  (if options.TokenFilePath = "" then .error "no token file" else .ok logCredential,
    w ++ [options])

/-- A credential that counts the calls of the SDK in the world and answers the
token `tok` expiring at 100 while fewer than two calls were made, an error after
that. -/
def countCredential : azcore.TokenCredential Unit String Nat Nat where
  GetToken _ _ w := (if w < 2 then .ok ⟨"tok", 100⟩ else .error "throttled", w + 1)

/-- A constructor that counts the calls of the SDK in the world and fails when no
token file is given. -/
def countNewCredential (options : azidentity.WorkloadIdentityCredentialOptions) (w : Nat) :
    Except String (azcore.TokenCredential Unit String Nat Nat) × Nat :=
  (if options.TokenFilePath = "" then .error "no token file" else .ok countCredential, w + 1)

end aztokenprovider

/-! ## Facts about strings used for the cache key -/

namespace GoString

/-- Appending to the same left part is injective. -/
theorem append_left_cancel {a b c : String} (h : a ++ b = a ++ c) : b = c := by
  have hd := congrArg String.data h
  simp only [String.data_append] at hd
  exact String.ext (List.append_cancel_left hd)

/-- Appending the same right part is injective. -/
theorem append_right_cancel {a b c : String} (h : a ++ c = b ++ c) : a = b := by
  have hd := congrArg String.data h
  simp only [String.data_append] at hd
  exact String.ext (List.append_cancel_right hd)

/-- Two lists split at a separator that occurs in neither left part agree part by
part. -/
theorem split_at_first_sep {sep : Char} :
    ∀ (a b x y : List Char), sep ∉ a → sep ∉ b →
      a ++ sep :: x = b ++ sep :: y → a = b ∧ x = y
  | [], [], x, y, _, _, h => by
      simp only [List.nil_append, List.cons.injEq, true_and] at h
      exact ⟨rfl, h⟩
  | [], d :: b, x, y, _, hb, h => by
      simp only [List.nil_append, List.cons_append, List.cons.injEq] at h
      exact absurd (by simp [h.1]) hb
  | d :: a, [], x, y, ha, _, h => by
      simp only [List.nil_append, List.cons_append, List.cons.injEq] at h
      exact absurd (by simp [h.1]) ha
  | d :: a, e :: b, x, y, ha, hb, h => by
      simp only [List.cons_append, List.cons.injEq] at h
      have ha2 : sep ∉ a := fun hm => ha (List.mem_cons_of_mem _ hm)
      have hb2 : sep ∉ b := fun hm => hb (List.mem_cons_of_mem _ hm)
      obtain ⟨h1, h2⟩ := split_at_first_sep a b x y ha2 hb2 h.2
      exact ⟨by rw [h.1, h1], h2⟩

/-- Two lists split at a separator that occurs in neither right part agree part by
part. -/
theorem split_at_last_sep {sep : Char} (a b x y : List Char) (hx : sep ∉ x)
    (hy : sep ∉ y) (h : a ++ sep :: x = b ++ sep :: y) : a = b ∧ x = y := by
  have hr := congrArg List.reverse h
  simp only [List.reverse_append, List.reverse_cons, List.append_assoc,
    List.singleton_append] at hr
  have hx2 : sep ∉ x.reverse := by simpa using hx
  have hy2 : sep ∉ y.reverse := by simpa using hy
  obtain ⟨h1, h2⟩ := split_at_first_sep x.reverse y.reverse a.reverse b.reverse hx2 hy2 hr
  exact ⟨List.reverse_injective h2, List.reverse_injective h1⟩

end GoString

namespace aztokenprovider

/-- The key in right-nested form, with the substitution of `"default"` spelled
out. -/
theorem GetCacheKey_fst {Cred : Type} (r : workloadIdentityTokenRetriever Cred) :
    (GetCacheKey r).1 =
      "azure|wi|" ++ ((if r.tenantId = "" then "default" else r.tenantId) ++
        ("|" ++ (if r.clientId = "" then "default" else r.clientId))) := by
  simp only [GetCacheKey, String.append_assoc]

/-- C1: for every workload-identity retriever with tenantId `t` and clientId `c`,
`GetCacheKey` returns exactly `"azure|wi|" ++ t' ++ "|" ++ c'`, where `t'` is `t` if
`t` is non-empty and `"default"` otherwise, and likewise `c'` for `c`; in particular
`t1`, `c1` give `"azure|wi|t1|c1"` and two empty fields give
`"azure|wi|default|default"`. -/
theorem GetCacheKey_format {Cred : Type} :
    (∀ r : workloadIdentityTokenRetriever Cred,
        (GetCacheKey r).1 =
          "azure|wi|" ++ (if r.tenantId ≠ "" then r.tenantId else "default") ++ "|" ++
            (if r.clientId ≠ "" then r.clientId else "default")) ∧
    (∀ r : workloadIdentityTokenRetriever Cred, r.tenantId = "t1" → r.clientId = "c1" →
        (GetCacheKey r).1 = "azure|wi|t1|c1") ∧
    (∀ r : workloadIdentityTokenRetriever Cred, r.tenantId = "" → r.clientId = "" →
        (GetCacheKey r).1 = "azure|wi|default|default") := by
  refine ⟨?_, ?_, ?_⟩
  · intro r
    by_cases ht : r.tenantId = "" <;> by_cases hc : r.clientId = "" <;>
      simp [GetCacheKey, ht, hc]
  · intro r ht hc
    simp only [GetCacheKey, ht, hc]
    decide
  · intro r ht hc
    simp only [GetCacheKey, ht, hc]
    decide

/-- Witness of C1 at the retriever with tenantId `t1`, clientId `c1`, a token file
and no credential. -/
theorem GetCacheKey_format_witness :
    (GetCacheKey (⟨"t1", "c1", "/var/run/token", none⟩ :
        workloadIdentityTokenRetriever Unit)).1 = "azure|wi|t1|c1" :=
  (GetCacheKey_format).2.1 ⟨"t1", "c1", "/var/run/token", none⟩ rfl rfl

/-- C2, as stated, fails: the tenantId `"default"` is non-empty, yet a retriever
with that tenantId and a retriever with the tenantId unset get the same key (both
with clientId `c1`); the same happens for the clientId `"default"`. -/
theorem GetCacheKey_default_collides :
    ("default" ≠ "" ∧
      (GetCacheKey (⟨"", "c1", "", none⟩ : workloadIdentityTokenRetriever Unit)).1 =
        (GetCacheKey (⟨"default", "c1", "", none⟩ : workloadIdentityTokenRetriever Unit)).1) ∧
    ("default" ≠ "" ∧
      (GetCacheKey (⟨"t1", "", "", none⟩ : workloadIdentityTokenRetriever Unit)).1 =
        (GetCacheKey (⟨"t1", "default", "", none⟩ : workloadIdentityTokenRetriever Unit)).1) := by
  decide

/-- C2 (amended): the sentinel collides with no real value other than the literal
`"default"`: if two retrievers have the same clientId, one has the tenantId unset
and the other a non-empty tenantId different from `"default"`, their keys differ;
and symmetrically for two retrievers with the same tenantId, one with the clientId
unset and the other with a non-empty clientId different from `"default"`. -/
theorem GetCacheKey_sentinel_ne {Cred : Type} (r₁ r₂ : workloadIdentityTokenRetriever Cred) :
    (r₁.clientId = r₂.clientId → r₁.tenantId = "" → r₂.tenantId ≠ "" →
        r₂.tenantId ≠ "default" → (GetCacheKey r₁).1 ≠ (GetCacheKey r₂).1) ∧
    (r₁.tenantId = r₂.tenantId → r₁.clientId = "" → r₂.clientId ≠ "" →
        r₂.clientId ≠ "default" → (GetCacheKey r₁).1 ≠ (GetCacheKey r₂).1) := by
  constructor
  · intro hc h1 h2 hd hk
    rw [GetCacheKey_fst, GetCacheKey_fst, hc, h1] at hk
    simp only [if_neg h2, if_true] at hk
    have := GoString.append_right_cancel (GoString.append_left_cancel hk)
    exact hd this.symm
  · intro ht h1 h2 hd hk
    rw [GetCacheKey_fst, GetCacheKey_fst, ht, h1] at hk
    simp only [if_neg h2, if_true] at hk
    have := GoString.append_left_cancel (GoString.append_left_cancel
      (GoString.append_left_cancel hk))
    exact hd this.symm

/-- Witness of C2 (amended): unset tenantId against tenantId `t1`, both with
clientId `c1`. -/
theorem GetCacheKey_sentinel_ne_witness :
    (GetCacheKey (⟨"", "c1", "", none⟩ : workloadIdentityTokenRetriever Unit)).1 ≠
      (GetCacheKey (⟨"t1", "c1", "", none⟩ : workloadIdentityTokenRetriever Unit)).1 :=
  (GetCacheKey_sentinel_ne ⟨"", "c1", "", none⟩ ⟨"t1", "c1", "", none⟩).1 rfl rfl
    (by decide) (by decide)

/-- C3, as stated, fails: the pairs (`a|b`, `c`) and (`a`, `b|c`) consist of
non-empty values and differ, yet both get the key `azure|wi|a|b|c`. -/
theorem GetCacheKey_separator_collides :
    ("a|b" ≠ "" ∧ "c" ≠ "" ∧ "a" ≠ "" ∧ "b|c" ≠ "") ∧
    (("a|b", "c") : String × String) ≠ ("a", "b|c") ∧
    (GetCacheKey (⟨"a|b", "c", "", none⟩ : workloadIdentityTokenRetriever Unit)).1 =
      (GetCacheKey (⟨"a", "b|c", "", none⟩ : workloadIdentityTokenRetriever Unit)).1 := by
  decide

/-- C3 (amended): on retrievers whose tenantId and clientId are all non-empty and
in which the separator `|` occurs in neither tenantId, or in neither clientId, the
key determines the pair: different (tenantId, clientId) pairs give different
keys. -/
theorem GetCacheKey_injective {Cred : Type} (r₁ r₂ : workloadIdentityTokenRetriever Cred)
    (ht₁ : r₁.tenantId ≠ "") (hc₁ : r₁.clientId ≠ "")
    (ht₂ : r₂.tenantId ≠ "") (hc₂ : r₂.clientId ≠ "")
    (hsep : ('|' ∉ r₁.tenantId.data ∧ '|' ∉ r₂.tenantId.data) ∨
      ('|' ∉ r₁.clientId.data ∧ '|' ∉ r₂.clientId.data))
    (hne : (r₁.tenantId, r₁.clientId) ≠ (r₂.tenantId, r₂.clientId)) :
    (GetCacheKey r₁).1 ≠ (GetCacheKey r₂).1 := by
  intro hk
  rw [GetCacheKey_fst, GetCacheKey_fst] at hk
  simp only [if_neg ht₁, if_neg hc₁, if_neg ht₂, if_neg hc₂] at hk
  have hd := congrArg String.data (GoString.append_left_cancel hk)
  simp only [String.data_append] at hd
  rw [List.singleton_append, List.singleton_append] at hd
  have hsplit : r₁.tenantId.data = r₂.tenantId.data ∧ r₁.clientId.data = r₂.clientId.data := by
    rcases hsep with ⟨h1, h2⟩ | ⟨h1, h2⟩
    · exact GoString.split_at_first_sep _ _ _ _ h1 h2 hd
    · exact GoString.split_at_last_sep _ _ _ _ h1 h2 hd
  exact hne (Prod.ext (String.ext hsplit.1) (String.ext hsplit.2))

/-- Witness of C3 (amended): tenantId `t1` against `t2`, both with the clientId
`c|1`, which contains the separator. -/
theorem GetCacheKey_injective_witness :
    (GetCacheKey (⟨"t1", "c|1", "", none⟩ : workloadIdentityTokenRetriever Unit)).1 ≠
      (GetCacheKey (⟨"t2", "c|1", "", none⟩ : workloadIdentityTokenRetriever Unit)).1 :=
  GetCacheKey_injective ⟨"t1", "c|1", "", none⟩ ⟨"t2", "c|1", "", none⟩
    (by decide) (by decide) (by decide) (by decide) (Or.inl (by decide)) (by decide)

/-- A string that starts with `azure|wi|` does not start with a prefix whose
seventh character is not `w`. -/
theorem wi_prefix_ne (x rest : String) (p : String) (c : Char) (tl : List Char)
    (hp : p.data = 'a' :: 'z' :: 'u' :: 'r' :: 'e' :: '|' :: c :: tl) (hc : c ≠ 'w') :
    "azure|wi|" ++ x ≠ p ++ rest := by
  intro h
  have hd := congrArg String.data h
  have hw : ("azure|wi|" : String).data = ['a', 'z', 'u', 'r', 'e', '|', 'w', 'i', '|'] := rfl
  simp only [String.data_append, hp, hw, List.cons_append, List.cons.injEq, true_and] at hd
  exact hc hd.1.symm

/-- C4: every workload-identity key begins with the fixed prefix `azure|wi|` and
therefore with none of `azure|mi|`, `azure|cs|`, `azure|user|`: whatever tenantId
and clientId are, the key equals no string carrying one of those prefixes (so the
key for clientId `mi-1` is `azure|wi|default|mi-1` and is no `azure|mi|...` key). -/
theorem GetCacheKey_prefix {Cred : Type} :
    (∀ r : workloadIdentityTokenRetriever Cred,
      (∃ rest : String, (GetCacheKey r).1 = "azure|wi|" ++ rest) ∧
      (∀ rest : String, (GetCacheKey r).1 ≠ "azure|mi|" ++ rest) ∧
      (∀ rest : String, (GetCacheKey r).1 ≠ "azure|cs|" ++ rest) ∧
      (∀ rest : String, (GetCacheKey r).1 ≠ "azure|user|" ++ rest)) ∧
    (∀ r : workloadIdentityTokenRetriever Cred, r.tenantId = "" → r.clientId = "mi-1" →
      (GetCacheKey r).1 = "azure|wi|default|mi-1" ∧
      ∀ rest : String, (GetCacheKey r).1 ≠ "azure|mi|" ++ rest) := by
  have hmain : ∀ r : workloadIdentityTokenRetriever Cred,
      (∃ rest : String, (GetCacheKey r).1 = "azure|wi|" ++ rest) ∧
      (∀ rest : String, (GetCacheKey r).1 ≠ "azure|mi|" ++ rest) ∧
      (∀ rest : String, (GetCacheKey r).1 ≠ "azure|cs|" ++ rest) ∧
      (∀ rest : String, (GetCacheKey r).1 ≠ "azure|user|" ++ rest) := by
    intro r
    refine ⟨⟨_, GetCacheKey_fst r⟩, ?_, ?_, ?_⟩
    · intro rest
      rw [GetCacheKey_fst]
      exact wi_prefix_ne _ rest _ 'm' _ rfl (by decide)
    · intro rest
      rw [GetCacheKey_fst]
      exact wi_prefix_ne _ rest _ 'c' _ rfl (by decide)
    · intro rest
      rw [GetCacheKey_fst]
      exact wi_prefix_ne _ rest _ 'u' _ rfl (by decide)
  refine ⟨hmain, ?_⟩
  intro r ht hc
  refine ⟨?_, (hmain r).2.1⟩
  simp only [GetCacheKey, ht, hc]
  decide

/-- C5: `GetCacheKey` is a function of the identity fields only and is free of
effects: two retrievers that agree on tenantId and clientId get the same key,
whatever their tokenFile and credential are; two retrievers that leave tenantId and
clientId unset get the same key; and the call leaves the retriever as it was. -/
theorem GetCacheKey_pure {Cred : Type} :
    (∀ r₁ r₂ : workloadIdentityTokenRetriever Cred,
      r₁.tenantId = r₂.tenantId → r₁.clientId = r₂.clientId →
        (GetCacheKey r₁).1 = (GetCacheKey r₂).1) ∧
    (∀ r₁ r₂ : workloadIdentityTokenRetriever Cred,
      r₁.tenantId = "" → r₁.clientId = "" → r₂.tenantId = "" → r₂.clientId = "" →
        (GetCacheKey r₁).1 = (GetCacheKey r₂).1) ∧
    (∀ r : workloadIdentityTokenRetriever Cred, (GetCacheKey r).2 = r) := by
  refine ⟨?_, ?_, ?_⟩
  · intro r₁ r₂ ht hc
    rw [GetCacheKey_fst, GetCacheKey_fst, ht, hc]
  · intro r₁ r₂ ht₁ hc₁ ht₂ hc₂
    rw [GetCacheKey_fst, GetCacheKey_fst, ht₁, hc₁, ht₂, hc₂]
  · intro r
    rfl

/-- Witness of C5: two retrievers with tenantId `t1` and clientId `c1` that differ
in tokenFile and credential get the same key. -/
theorem GetCacheKey_pure_witness :
    (GetCacheKey (⟨"t1", "c1", "/a", none⟩ : workloadIdentityTokenRetriever Nat)).1 =
      (GetCacheKey (⟨"t1", "c1", "/b", some 7⟩ : workloadIdentityTokenRetriever Nat)).1 :=
  (GetCacheKey_pure).1 ⟨"t1", "c1", "/a", none⟩ ⟨"t1", "c1", "/b", some 7⟩ rfl rfl

/-- C7: `GetAccessToken` surfaces the outcome of the backend verbatim. For every
retriever holding a credential, every context, scope list and world, the world after
the call is the world after one call of the credential's `GetToken` with the context
and with options whose scopes are exactly the given ones; if that call answers the
error `err`, the result is no token and exactly `err`; if it answers a token, the
result is an `AccessToken` with the same `Token` and `ExpiresOn`, and no error. The
retriever is left as it was. -/
theorem GetAccessToken_verbatim {Ctx Err Time W : Type}
    (c : workloadIdentityTokenRetriever (azcore.TokenCredential Ctx Err Time W))
    (credential : azcore.TokenCredential Ctx Err Time W)
    (ctx : Ctx) (scopes : List String) (w : W) (hc : c.credential = some credential) :
    (∀ (err : Err) (w₁ : W), credential.GetToken ctx ⟨scopes⟩ w = (.error err, w₁) →
      GetAccessToken c ctx scopes w = some ((none, some err), c, w₁)) ∧
    (∀ (tok : azcore.AccessToken Time) (w₁ : W),
      credential.GetToken ctx ⟨scopes⟩ w = (.ok tok, w₁) →
      GetAccessToken c ctx scopes w =
        some ((some ⟨tok.Token, tok.ExpiresOn⟩, none), c, w₁)) := by
  constructor
  · intro err w₁ h
    simp only [GetAccessToken, hc, h]
  · intro tok w₁ h
    simp only [GetAccessToken, hc, h]

/-- Witness of C7: with the logging credential, a request for the scope `s1` is
answered by the token of the backend, and the log holds that one request. -/
theorem GetAccessToken_verbatim_witness :
    GetAccessToken ⟨"t1", "c1", "/f", some logCredential⟩ () ["s1"] [] =
      some ((some ⟨"tok", 100⟩, none), ⟨"t1", "c1", "/f", some logCredential⟩, [⟨["s1"]⟩]) :=
  (GetAccessToken_verbatim ⟨"t1", "c1", "/f", some logCredential⟩ logCredential () ["s1"] []
    rfl).2 ⟨"tok", 100⟩ [⟨["s1"]⟩] rfl

/-- C9: `Init` hands the constructor options with `TenantID`, `ClientID` and
`TokenFilePath` equal to the retriever's tenantId, clientId and tokenFile (an empty
field stays empty) and calls it once. `Init` returns an error exactly when the
constructor does, and then that same error, leaving the retriever as it was; when
the constructor answers a credential, `Init` returns no error and the retriever
holds that credential, its other fields unchanged. -/
theorem Init_outcome {Cred Err W : Type}
    (NewWorkloadIdentityCredential :
      azidentity.WorkloadIdentityCredentialOptions → W → Except Err Cred × W)
    (c : workloadIdentityTokenRetriever Cred) (w : W) :
    (∀ (err : Err) (w₁ : W),
      NewWorkloadIdentityCredential ⟨c.tenantId, c.clientId, c.tokenFile⟩ w = (.error err, w₁) →
      Init NewWorkloadIdentityCredential c w = (some err, c, w₁)) ∧
    (∀ (credential : Cred) (w₁ : W),
      NewWorkloadIdentityCredential ⟨c.tenantId, c.clientId, c.tokenFile⟩ w =
        (.ok credential, w₁) →
      Init NewWorkloadIdentityCredential c w =
        (none, ⟨c.tenantId, c.clientId, c.tokenFile, some credential⟩, w₁)) ∧
    ((Init NewWorkloadIdentityCredential c w).1 ≠ none ↔
      ∃ err, (NewWorkloadIdentityCredential ⟨c.tenantId, c.clientId, c.tokenFile⟩ w).1 =
        .error err) := by
  have hoptions :
      (let options : azidentity.WorkloadIdentityCredentialOptions := ⟨"", "", ""⟩
       let options := if c.tenantId ≠ "" then { options with TenantID := c.tenantId } else options
       let options := if c.clientId ≠ "" then { options with ClientID := c.clientId } else options
       let options :=
         if c.tokenFile ≠ "" then { options with TokenFilePath := c.tokenFile } else options
       options) = ⟨c.tenantId, c.clientId, c.tokenFile⟩ := by
    by_cases h1 : c.tenantId = "" <;> by_cases h2 : c.clientId = "" <;>
      by_cases h3 : c.tokenFile = "" <;> simp [h1, h2, h3]
  have hInit : Init NewWorkloadIdentityCredential c w =
      match NewWorkloadIdentityCredential ⟨c.tenantId, c.clientId, c.tokenFile⟩ w with
      | (.error err, w) => (some err, c, w)
      | (.ok credential, w) => (none, { c with credential := some credential }, w) := by
    unfold Init
    simp only [] at hoptions ⊢
    rw [hoptions]
  refine ⟨?_, ?_, ?_⟩
  · intro err w₁ h
    rw [hInit, h]
  · intro credential w₁ h
    rw [hInit, h]
  · rw [hInit]
    rcases hn : NewWorkloadIdentityCredential ⟨c.tenantId, c.clientId, c.tokenFile⟩ w with
      ⟨r, w₁⟩
    cases r with
    | error err => simp
    | ok credential => simp

/-- Witness of C9: with the logging constructor a retriever without token file
fails to initialise with the error of the constructor and stays as it was; the log
holds the options, the unset fields empty. -/
theorem Init_outcome_witness :
    Init logNewCredential ⟨"t1", "", "", none⟩ [] =
      (some "no token file", ⟨"t1", "", "", none⟩, [⟨"t1", "", ""⟩]) :=
  (Init_outcome logNewCredential ⟨"t1", "", "", none⟩ []).1 "no token file" [⟨"t1", "", ""⟩] rfl

/-- C10: for every non-nil settings value `s`, `getWorkloadIdentityTokenRetriever`
returns a retriever without credential whose tenantId, clientId and tokenFile are
the `TenantId`, `ClientId` and `TokenFile` of `s.WorkloadIdentitySettings` when that
is present, and are all empty when it is nil, in which case the cache key is
`azure|wi|default|default`; the result is the same for any credentials argument and
for any settings value with the same `WorkloadIdentitySettings`. -/
theorem getWorkloadIdentityTokenRetriever_fields {Cred Creds : Type} :
    (∀ (s : azsettings.AzureSettings) (credentials : Option Creds)
        (wi : azsettings.WorkloadIdentitySettings), s.WorkloadIdentitySettings = some wi →
      (getWorkloadIdentityTokenRetriever (some s) credentials :
          Option (workloadIdentityTokenRetriever Cred)) =
        some ⟨wi.TenantId, wi.ClientId, wi.TokenFile, none⟩) ∧
    (∀ (s : azsettings.AzureSettings) (credentials : Option Creds),
      s.WorkloadIdentitySettings = none →
      (getWorkloadIdentityTokenRetriever (some s) credentials :
          Option (workloadIdentityTokenRetriever Cred)) = some ⟨"", "", "", none⟩ ∧
      (getWorkloadIdentityTokenRetriever (some s) credentials :
          Option (workloadIdentityTokenRetriever Cred)).map (fun r => (GetCacheKey r).1) =
        some "azure|wi|default|default") ∧
    (∀ (s s₁ : azsettings.AzureSettings) (credentials credentials₁ : Option Creds),
      s.WorkloadIdentitySettings = s₁.WorkloadIdentitySettings →
      (getWorkloadIdentityTokenRetriever (some s) credentials :
          Option (workloadIdentityTokenRetriever Cred)) =
        getWorkloadIdentityTokenRetriever (some s₁) credentials₁) := by
  refine ⟨?_, ?_, ?_⟩
  · intro s credentials wi h
    simp only [getWorkloadIdentityTokenRetriever, h]
  · intro s credentials h
    constructor
    · simp only [getWorkloadIdentityTokenRetriever, h]
    · simp only [getWorkloadIdentityTokenRetriever, h, Option.map_some', GetCacheKey]
      decide
  · intro s s₁ credentials credentials₁ h
    simp only [getWorkloadIdentityTokenRetriever, h]

/-- Witness of C10: settings whose workload-identity part is `t1`, `c1`, `/f`, with
managed identity enabled beside it. -/
theorem getWorkloadIdentityTokenRetriever_fields_witness :
    (getWorkloadIdentityTokenRetriever
        (some ⟨"AzureCloud", true, "mi-1", true, some ⟨"t1", "c1", "/f"⟩, false, none⟩)
        (some 5) : Option (workloadIdentityTokenRetriever Unit)) =
      some ⟨"t1", "c1", "/f", none⟩ :=
  (getWorkloadIdentityTokenRetriever_fields).1
    ⟨"AzureCloud", true, "mi-1", true, some ⟨"t1", "c1", "/f"⟩, false, none⟩ (some 5)
    ⟨"t1", "c1", "/f"⟩ rfl

/-- Frame of `Init`: tenantId, clientId and tokenFile are left as they were. -/
theorem Init_frame {Cred Err W : Type}
    (NewWorkloadIdentityCredential :
      azidentity.WorkloadIdentityCredentialOptions → W → Except Err Cred × W)
    (c : workloadIdentityTokenRetriever Cred) (w : W) :
    (Init NewWorkloadIdentityCredential c w).2.1.tenantId = c.tenantId ∧
    (Init NewWorkloadIdentityCredential c w).2.1.clientId = c.clientId ∧
    (Init NewWorkloadIdentityCredential c w).2.1.tokenFile = c.tokenFile := by
  unfold Init
  simp only []
  split <;> exact ⟨rfl, rfl, rfl⟩

/-- Frame of `GetAccessToken`: a call that returns leaves the retriever as it
was. -/
theorem GetAccessToken_frame {Ctx Err Time W : Type}
    (c : workloadIdentityTokenRetriever (azcore.TokenCredential Ctx Err Time W))
    (ctx : Ctx) (scopes : List String) (w : W)
    (r : (Option (AccessToken Time) × Option Err) ×
      workloadIdentityTokenRetriever (azcore.TokenCredential Ctx Err Time W) × W)
    (h : GetAccessToken c ctx scopes w = some r) : r.2.1 = c := by
  unfold GetAccessToken at h
  cases hc : c.credential with
  | none => simp [hc] at h
  | some credential =>
    simp only [hc] at h
    split at h <;> simp at h <;> subst h <;> rfl

/-- C17: the cache key of a retriever is stable across its life. `Init`, whether it
succeeds or fails, leaves tenantId, clientId and tokenFile unchanged;
`GetAccessToken`, whether it succeeds or fails, leaves the whole retriever unchanged,
the credential included (the retriever has no field for a token); and after any
sequence of `Init` and `GetAccessToken` calls on the same retriever the three fields
and the result of `GetCacheKey` are what they were before. -/
theorem GetCacheKey_stable {Ctx Err Time W : Type}
    (NewWorkloadIdentityCredential : azidentity.WorkloadIdentityCredentialOptions → W →
      Except Err (azcore.TokenCredential Ctx Err Time W) × W) :
    (∀ (c : workloadIdentityTokenRetriever (azcore.TokenCredential Ctx Err Time W)) (w : W),
      (Init NewWorkloadIdentityCredential c w).2.1.tenantId = c.tenantId ∧
      (Init NewWorkloadIdentityCredential c w).2.1.clientId = c.clientId ∧
      (Init NewWorkloadIdentityCredential c w).2.1.tokenFile = c.tokenFile ∧
      (GetCacheKey (Init NewWorkloadIdentityCredential c w).2.1).1 = (GetCacheKey c).1) ∧
    (∀ (c : workloadIdentityTokenRetriever (azcore.TokenCredential Ctx Err Time W))
        (ctx : Ctx) (scopes : List String) (w : W)
        (r : (Option (AccessToken Time) × Option Err) ×
          workloadIdentityTokenRetriever (azcore.TokenCredential Ctx Err Time W) × W),
      GetAccessToken c ctx scopes w = some r →
        r.2.1 = c ∧ (GetCacheKey r.2.1).1 = (GetCacheKey c).1) ∧
    (∀ (calls : List (Call Ctx))
        (c : workloadIdentityTokenRetriever (azcore.TokenCredential Ctx Err Time W)) (w : W),
      (runCalls NewWorkloadIdentityCredential calls c w).1.tenantId = c.tenantId ∧
      (runCalls NewWorkloadIdentityCredential calls c w).1.clientId = c.clientId ∧
      (runCalls NewWorkloadIdentityCredential calls c w).1.tokenFile = c.tokenFile ∧
      (GetCacheKey (runCalls NewWorkloadIdentityCredential calls c w).1).1 =
        (GetCacheKey c).1) := by
  have hkey : ∀ c₁ c₂ : workloadIdentityTokenRetriever (azcore.TokenCredential Ctx Err Time W),
      c₁.tenantId = c₂.tenantId → c₁.clientId = c₂.clientId →
        (GetCacheKey c₁).1 = (GetCacheKey c₂).1 := by
    intro c₁ c₂ ht hc
    rw [GetCacheKey_fst, GetCacheKey_fst, ht, hc]
  have hrun : ∀ (calls : List (Call Ctx))
      (c : workloadIdentityTokenRetriever (azcore.TokenCredential Ctx Err Time W)) (w : W),
      (runCalls NewWorkloadIdentityCredential calls c w).1.tenantId = c.tenantId ∧
      (runCalls NewWorkloadIdentityCredential calls c w).1.clientId = c.clientId ∧
      (runCalls NewWorkloadIdentityCredential calls c w).1.tokenFile = c.tokenFile := by
    intro calls
    induction calls with
    | nil => intro c w; exact ⟨rfl, rfl, rfl⟩
    | cons call calls ih =>
      intro c w
      cases call with
      | Init =>
        obtain ⟨h1, h2, h3⟩ := Init_frame NewWorkloadIdentityCredential c w
        obtain ⟨i1, i2, i3⟩ := ih (Init NewWorkloadIdentityCredential c w).2.1
          (Init NewWorkloadIdentityCredential c w).2.2
        simp only [runCalls]
        exact ⟨i1.trans h1, i2.trans h2, i3.trans h3⟩
      | GetAccessToken ctx scopes =>
        simp only [runCalls]
        cases hg : GetAccessToken c ctx scopes w with
        | none => exact ⟨rfl, rfl, rfl⟩
        | some r =>
          have hf := GetAccessToken_frame c ctx scopes w r hg
          obtain ⟨res, c₁, w₁⟩ := r
          obtain ⟨i1, i2, i3⟩ := ih c₁ w₁
          simp only [] at hf ⊢
          rw [hf] at i1 i2 i3
          rw [hf]
          exact ⟨i1, i2, i3⟩
  refine ⟨?_, ?_, ?_⟩
  · intro c w
    obtain ⟨h1, h2, h3⟩ := Init_frame NewWorkloadIdentityCredential c w
    exact ⟨h1, h2, h3, hkey _ _ h1 h2⟩
  · intro c ctx scopes w r h
    have hf := GetAccessToken_frame c ctx scopes w r h
    exact ⟨hf, by rw [hf]⟩
  · intro calls c w
    obtain ⟨h1, h2, h3⟩ := hrun calls c w
    exact ⟨h1, h2, h3, hkey _ _ h1 h2⟩

/-- Witness of C17: `Init`, then three token requests of which the first succeeds
and the others fail; the key is the one from before. -/
theorem GetCacheKey_stable_witness :
    (runCalls countNewCredential
        [Call.Init, Call.GetAccessToken () ["s1"], Call.GetAccessToken () ["s1"],
          Call.GetAccessToken () ["s1"]]
        ⟨"t1", "", "/f", none⟩ 0).2 = 4 ∧
      (GetCacheKey (runCalls countNewCredential
        [Call.Init, Call.GetAccessToken () ["s1"], Call.GetAccessToken () ["s1"],
          Call.GetAccessToken () ["s1"]]
        ⟨"t1", "", "/f", none⟩ 0).1).1 = "azure|wi|t1|default" :=
  ⟨by rfl, ((GetCacheKey_stable countNewCredential).2.2
    [Call.Init, Call.GetAccessToken () ["s1"], Call.GetAccessToken () ["s1"],
      Call.GetAccessToken () ["s1"]]
    ⟨"t1", "", "/f", none⟩ 0).2.2.2.trans (by decide)⟩

end aztokenprovider

namespace azsettings

/-! ## The entries `WriteToEnvStr` emits -/

/-- Appending under a condition is appending a list that is empty unless the
condition holds. -/
theorem ite_append_eq {c : Prop} [Decidable c] (l x : List String) :
    (if c then l ++ x else l) = l ++ (if c then x else []) := by
  by_cases h : c <;> simp [h]

/-- The entries of a table, slot by slot. -/
theorem slotEntries_cons (name : String) (value : Option String)
    (slots : List (String × Option String)) :
    slotEntries ((name, value) :: slots) =
      (match value with
        | some v => [name ++ "=" ++ v]
        | none => []) ++ slotEntries slots := by
  cases value <;> simp [slotEntries]

/-- The entry of a string field that is written only when it is not empty. -/
theorem nonEmpty_entry (name value : String) :
    (match nonEmpty value with
      | some v => [name ++ "=" ++ v]
      | none => ([] : List String)) = if value ≠ "" then [name ++ "=" ++ value] else [] := by
  by_cases h : value = "" <;> simp [nonEmpty, h]

/-- The entry of a flag, as `fmt.Sprintf("%s=true", name)` writes it. -/
theorem entry_true (name : String) : name ++ "=" ++ "true" = name ++ "=true" := by
  rw [String.append_assoc]
  rfl

/-- The entry of the assertion, as `fmt.Sprintf("%s=username", name)` writes it. -/
theorem entry_username (name : String) : name ++ "=" ++ "username" = name ++ "=username" := by
  rw [String.append_assoc]
  rfl

/-- The function `WriteToEnvStr` emits the entries of its table. -/
theorem WriteToEnvStr_eq_slotEntries (s : AzureSettings) :
    WriteToEnvStr (some s) = slotEntries (writtenSlots s) := by
  obtain ⟨cloud, mi, miId, wi, wiS, ui, uiE⟩ := s
  rcases uiE with _ | ⟨url, id, secret, _ | _⟩ <;>
    cases mi <;> cases wi <;> cases ui <;> cases wiS <;>
    simp only [WriteToEnvStr, ite_append_eq, reduceIte, Bool.false_eq_true] <;>
    simp only [writtenSlots, slotEntries_cons, slotEntries, Option.bind, nonEmpty_entry,
      reduceIte, Bool.false_eq_true, entry_true, entry_username] <;>
    simp only [List.append_assoc, List.nil_append, List.append_nil, List.singleton_append,
      List.cons_append]

/-- Splitting at the first `=` a list whose part before it has none. -/
theorem split_first_eq (n v : List Char) (h : '=' ∉ n) :
    (n ++ '=' :: v).takeWhile (fun ch => ch != '=') = n ∧
      (n ++ '=' :: v).dropWhile (fun ch => ch != '=') = '=' :: v := by
  induction n with
  | nil => simp
  | cons c n ih =>
    have hc : c ≠ '=' := fun hc => h (by simp [hc])
    have hn : '=' ∉ n := fun hm => h (List.mem_cons_of_mem _ hm)
    obtain ⟨h1, h2⟩ := ih hn
    simp [hc, h1, h2]

/-- The name and the value of the entry made of a name without `=` and a value. -/
theorem entry_parts (name value : String) (h : '=' ∉ name.data) :
    entryName (name ++ "=" ++ value) = name ∧ entryValue (name ++ "=" ++ value) = value := by
  have hd : (name ++ "=" ++ value).data = name.data ++ '=' :: value.data := by
    simp only [String.data_append, List.append_assoc]
    rfl
  obtain ⟨h1, h2⟩ := split_first_eq name.data value.data h
  constructor
  · simp only [entryName, hd, h1]
  · simp only [entryValue, hd, h2, List.drop_succ_cons, List.drop_zero]

/-- Every entry of a table comes from a slot that has a value. -/
theorem mem_slotEntries (slots : List (String × Option String)) (entry : String)
    (h : entry ∈ slotEntries slots) :
    ∃ name value, (name, some value) ∈ slots ∧ entry = name ++ "=" ++ value := by
  induction slots with
  | nil => simp [slotEntries] at h
  | cons p slots ih =>
    obtain ⟨n, o⟩ := p
    cases o with
    | none =>
      simp only [slotEntries] at h
      obtain ⟨name, value, hm, he⟩ := ih h
      exact ⟨name, value, List.mem_cons_of_mem _ hm, he⟩
    | some v =>
      simp only [slotEntries, List.mem_cons] at h
      rcases h with h | h
      · exact ⟨n, v, List.mem_cons_self _ _, h⟩
      · obtain ⟨name, value, hm, he⟩ := ih h
        exact ⟨name, value, List.mem_cons_of_mem _ hm, he⟩

/-- The names of the entries of a table follow the order of the table. -/
theorem slotEntries_names (slots : List (String × Option String))
    (hnames : ∀ p ∈ slots, '=' ∉ p.1.data) :
    ((slotEntries slots).map entryName).Sublist (slots.map Prod.fst) := by
  induction slots with
  | nil => simp [slotEntries]
  | cons p slots ih =>
    obtain ⟨n, o⟩ := p
    have ih2 := ih (fun q hq => hnames q (List.mem_cons_of_mem _ hq))
    cases o with
    | none =>
      simp only [slotEntries, List.map_cons]
      exact List.Sublist.cons _ ih2
    | some v =>
      have hn := (entry_parts n v (hnames (n, some v) (List.mem_cons_self _ _))).1
      simp only [slotEntries, List.map_cons, hn]
      exact List.Sublist.cons₂ _ ih2

/-- A name that is in no slot of a table is not set in the environment of its
entries. -/
theorem envOfEntries_slotEntries_none (slots : List (String × Option String))
    (hnames : ∀ p ∈ slots, '=' ∉ p.1.data) (name : String)
    (hname : name ∉ slots.map Prod.fst) :
    envOfEntries (slotEntries slots) name = none := by
  induction slots with
  | nil => simp [slotEntries, envOfEntries]
  | cons p slots ih =>
    obtain ⟨n, o⟩ := p
    have hne : name ≠ n := fun h => hname (by simp [h])
    have ih2 := ih (fun q hq => hnames q (List.mem_cons_of_mem _ hq))
      (fun h => hname (by simp only [List.map_cons]; exact List.mem_cons_of_mem _ h))
    cases o with
    | none => simpa only [slotEntries] using ih2
    | some v =>
      have hn := (entry_parts n v (hnames (n, some v) (List.mem_cons_self _ _))).1
      have hb : (name == n) = false := by simpa using hne
      simp only [envOfEntries] at ih2
      simp only [slotEntries, envOfEntries, List.map_cons, hn, List.lookup_cons, hb, ih2]

/-- In the environment of the entries of a table with distinct names, a variable has
the value of its slot. -/
theorem envOfEntries_slotEntries (slots : List (String × Option String))
    (hnames : ∀ p ∈ slots, '=' ∉ p.1.data) (hnodup : (slots.map Prod.fst).Nodup)
    (name : String) :
    envOfEntries (slotEntries slots) name = (slots.lookup name).join := by
  induction slots with
  | nil => simp [slotEntries, envOfEntries]
  | cons p slots ih =>
    obtain ⟨n, o⟩ := p
    have hnames2 : ∀ q ∈ slots, '=' ∉ q.1.data := fun q hq => hnames q (List.mem_cons_of_mem _ hq)
    simp only [List.map_cons, List.nodup_cons] at hnodup
    have ih2 := ih hnames2 hnodup.2
    by_cases hne : name = n
    · subst hne
      cases o with
      | none =>
        simp only [slotEntries, List.lookup_cons, beq_self_eq_true, Option.join]
        exact envOfEntries_slotEntries_none slots hnames2 name hnodup.1
      | some v =>
        obtain ⟨h1, h2⟩ := entry_parts name v (hnames (name, some v) (List.mem_cons_self _ _))
        simp only [slotEntries, envOfEntries, List.map_cons, h1, h2, List.lookup_cons,
          beq_self_eq_true, Option.join]
        rfl
    · have hb : (name == n) = false := by simpa using hne
      cases o with
      | none => simpa only [slotEntries, List.lookup_cons, hb] using ih2
      | some v =>
        have hn := (entry_parts n v (hnames (n, some v) (List.mem_cons_self _ _))).1
        simp only [envOfEntries] at ih2
        simp only [slotEntries, envOfEntries, List.map_cons, hn, List.lookup_cons, hb, ih2]

/-- The names of the table of `WriteToEnvStr` are `writtenNames`. -/
theorem writtenSlots_fst (s : AzureSettings) : (writtenSlots s).map Prod.fst = writtenNames :=
  rfl

/-- No name `WriteToEnvStr` can emit contains `=`. -/
theorem writtenSlots_names (s : AzureSettings) : ∀ p ∈ writtenSlots s, '=' ∉ p.1.data := by
  have hall : ∀ n ∈ writtenNames, '=' ∉ n.data := by decide
  intro p hp
  exact hall p.1 (writtenSlots_fst s ▸ List.mem_map_of_mem Prod.fst hp)

/-- The names `WriteToEnvStr` can emit are distinct. -/
theorem writtenNames_nodup : writtenNames.Nodup := by
  decide

/-- A value that is written only when it is not empty is not empty. -/
theorem nonEmpty_some (x v : String) (h : nonEmpty x = some v) : v ≠ "" := by
  unfold nonEmpty at h
  by_cases hx : x = ""
  · simp [hx] at h
  · simp only [ne_eq, hx, not_false_eq_true, if_true, Option.some.injEq] at h
    exact h ▸ hx

/-- The value of a slot of `WriteToEnvStr` is not empty, and a slot of a mechanism
has a value only when the mechanism is enabled. -/
theorem writtenSlots_value (s : AzureSettings) (name value : String)
    (h : (name, some value) ∈ writtenSlots s) :
    value ≠ "" ∧
    (name ∈ [ManagedIdentityEnabled, ManagedIdentityClientID] →
      s.ManagedIdentityEnabled = true) ∧
    (name ∈ [WorkloadIdentityEnabled, WorkloadIdentityTenantID, WorkloadIdentityClientID,
        WorkloadIdentityTokenFile] → s.WorkloadIdentityEnabled = true) ∧
    (name ∈ [UserIdentityEnabled, UserIdentityTokenURL, UserIdentityClientID,
        UserIdentityClientSecret, UserIdentityAssertion] → s.UserIdentityEnabled = true) := by
  obtain ⟨cloud, mi, miId, wi, wiS, ui, uiE⟩ := s
  simp only [writtenSlots, List.mem_cons, Prod.mk.injEq, List.mem_singleton,
    List.not_mem_nil, or_false] at h
  rcases h with ⟨hn, hv⟩ | ⟨hn, hv⟩ | ⟨hn, hv⟩ | ⟨hn, hv⟩ | ⟨hn, hv⟩ | ⟨hn, hv⟩ | ⟨hn, hv⟩ |
      ⟨hn, hv⟩ | ⟨hn, hv⟩ | ⟨hn, hv⟩ | ⟨hn, hv⟩ | ⟨hn, hv⟩ <;>
    subst hn <;>
    refine ⟨?_, fun hm => ?_, fun hm => ?_, fun hm => ?_⟩ <;>
    first
      | exact absurd hm (by decide)
      | exact nonEmpty_some _ _ hv.symm
      | (cases mi <;> simp_all <;> done)
      | (cases wi <;> simp_all <;> done)
      | (cases ui <;> simp_all <;> done)
      | (cases mi <;> simp at hv <;> exact nonEmpty_some _ _ hv.symm)
      | (cases wi <;> rcases wiS with _ | ⟨t, c, f⟩ <;> simp at hv <;>
          exact nonEmpty_some _ _ hv.symm)
      | (cases ui <;> rcases uiE with _ | ⟨u, c, x, _ | _⟩ <;> simp at hv <;>
          first
            | exact nonEmpty_some _ _ hv.symm
            | (subst hv; decide))

/-! ## What `ReadFromEnv` reads -/

/-- The settings of a successful `ReadFromEnv`, field by field, in terms of what the
helpers answer. -/
theorem ReadFromEnv_success {E : Type} (envutil : Envutil E) (AzurePublic : String)
    (s : AzureSettings) (hs : ReadFromEnv envutil AzurePublic = (some s, none)) :
    s.Cloud = envutil.GetOrFallback AzureCloud fallbackAzureCloud AzurePublic ∧
    envutil.GetBoolOrFallback ManagedIdentityEnabled fallbackManagedIdentityEnabled false =
      .ok s.ManagedIdentityEnabled ∧
    (s.ManagedIdentityEnabled = true → s.ManagedIdentityClientId =
      envutil.GetOrFallback ManagedIdentityClientID fallbackManagedIdentityClientId "") ∧
    envutil.GetBoolOrDefault WorkloadIdentityEnabled false = .ok s.WorkloadIdentityEnabled ∧
    (s.WorkloadIdentityEnabled = true → s.WorkloadIdentitySettings =
      some ⟨envutil.GetOrDefault WorkloadIdentityTenantID "",
        envutil.GetOrDefault WorkloadIdentityClientID "",
        envutil.GetOrDefault WorkloadIdentityTokenFile ""⟩) ∧
    envutil.GetBoolOrDefault UserIdentityEnabled false = .ok s.UserIdentityEnabled ∧
    (s.UserIdentityEnabled = true → ∃ tokenUrl clientId,
      envutil.Get UserIdentityTokenURL = .ok tokenUrl ∧
      envutil.Get UserIdentityClientID = .ok clientId ∧
      s.UserIdentityTokenEndpoint =
        some ⟨tokenUrl, clientId, envutil.GetOrDefault UserIdentityClientSecret "",
          envutil.GetOrDefault UserIdentityAssertion "" == "username"⟩) := by
  unfold ReadFromEnv at hs
  cases hmi : envutil.GetBoolOrFallback ManagedIdentityEnabled
      fallbackManagedIdentityEnabled false with
  | error e => simp [hmi] at hs
  | ok bmi =>
    cases hwi : envutil.GetBoolOrDefault WorkloadIdentityEnabled false with
    | error e => simp [hmi, hwi] at hs
    | ok bwi =>
      cases hui : envutil.GetBoolOrDefault UserIdentityEnabled false with
      | error e => simp [hmi, hwi, hui] at hs
      | ok bui =>
        cases bui with
        | false =>
          simp only [hmi, hwi, hui] at hs
          cases bmi <;> cases bwi <;> simp at hs <;> subst hs <;> simp
        | true =>
          cases hurl : envutil.Get UserIdentityTokenURL with
          | error e => simp [hmi, hwi, hui, hurl] at hs
          | ok tokenUrl =>
            cases hid : envutil.Get UserIdentityClientID with
            | error e => simp [hmi, hwi, hui, hurl, hid] at hs
            | ok clientId =>
              simp only [hmi, hwi, hui, hurl, hid] at hs
              cases bmi <;> cases bwi <;> simp at hs <;> subst hs <;> simp

/-- The nested settings of a successful `ReadFromEnv` are nil for a mechanism that
is not enabled. -/
theorem ReadFromEnv_nested_nil {E : Type} (envutil : Envutil E) (AzurePublic : String)
    (s : AzureSettings) (hs : ReadFromEnv envutil AzurePublic = (some s, none)) :
    (s.WorkloadIdentityEnabled = false → s.WorkloadIdentitySettings = none) ∧
    (s.UserIdentityEnabled = false → s.UserIdentityTokenEndpoint = none) := by
  unfold ReadFromEnv at hs
  cases hmi : envutil.GetBoolOrFallback ManagedIdentityEnabled
      fallbackManagedIdentityEnabled false with
  | error e => simp [hmi] at hs
  | ok bmi =>
    cases hwi : envutil.GetBoolOrDefault WorkloadIdentityEnabled false with
    | error e => simp [hmi, hwi] at hs
    | ok bwi =>
      cases hui : envutil.GetBoolOrDefault UserIdentityEnabled false with
      | error e => simp [hmi, hwi, hui] at hs
      | ok bui =>
        cases bui with
        | false =>
          simp only [hmi, hwi, hui] at hs
          cases bmi <;> cases bwi <;> simp at hs <;> subst hs <;> simp
        | true =>
          cases hurl : envutil.Get UserIdentityTokenURL with
          | error e => simp [hmi, hwi, hui, hurl] at hs
          | ok tokenUrl =>
            cases hid : envutil.Get UserIdentityClientID with
            | error e => simp [hmi, hwi, hui, hurl, hid] at hs
            | ok clientId =>
              simp only [hmi, hwi, hui, hurl, hid] at hs
              cases bmi <;> cases bwi <;> simp at hs <;> subst hs <;> simp

end azsettings

namespace azsettings

/-- C6: token URL and client ID are mandatory when user identity is enabled. In
every environment in which the managed-identity and workload-identity flags parse
without error and `GFAZPL_USER_IDENTITY_ENABLED` parses to true, `ReadFromEnv`
returns an error if and only if `envutil.Get` reports `GFAZPL_USER_IDENTITY_TOKEN_URL`
or `GFAZPL_USER_IDENTITY_CLIENT_ID` as not set; with an error it returns no settings,
without an error it returns settings. Nothing is assumed about
`GFAZPL_USER_IDENTITY_ASSERTION`. -/
theorem ReadFromEnv_user_identity_mandatory {E : Type} (envutil : Envutil E)
    (AzurePublic : String)
    (hmi : ∃ b, envutil.GetBoolOrFallback ManagedIdentityEnabled
      fallbackManagedIdentityEnabled false = .ok b)
    (hwi : ∃ b, envutil.GetBoolOrDefault WorkloadIdentityEnabled false = .ok b)
    (hui : envutil.GetBoolOrDefault UserIdentityEnabled false = .ok true) :
    ((ReadFromEnv envutil AzurePublic).2 ≠ none ↔
      ((∃ e, envutil.Get UserIdentityTokenURL = .error e) ∨
        (∃ e, envutil.Get UserIdentityClientID = .error e))) ∧
    ((ReadFromEnv envutil AzurePublic).2 ≠ none → (ReadFromEnv envutil AzurePublic).1 = none) ∧
    ((ReadFromEnv envutil AzurePublic).2 = none → (ReadFromEnv envutil AzurePublic).1 ≠ none) := by
  obtain ⟨bmi, hmi⟩ := hmi
  obtain ⟨bwi, hwi⟩ := hwi
  cases hurl : envutil.Get UserIdentityTokenURL with
  | error e => simp [ReadFromEnv, hmi, hwi, hui, hurl]
  | ok tokenUrl =>
    cases hid : envutil.Get UserIdentityClientID with
    | error e => simp [ReadFromEnv, hmi, hwi, hui, hurl, hid]
    | ok clientId => simp [ReadFromEnv, hmi, hwi, hui, hurl, hid]

/-- Witness of C6: user identity enabled with the assertion `username` and a token
URL but no client ID; `ReadFromEnv` returns an error. -/
theorem ReadFromEnv_user_identity_mandatory_witness :
    (ReadFromEnv (listEnvutil [("GFAZPL_USER_IDENTITY_ENABLED", "true"),
      ("GFAZPL_USER_IDENTITY_ASSERTION", "username"),
      ("GFAZPL_USER_IDENTITY_TOKEN_URL", "https://login/token")]) "AzureCloud").2 ≠ none :=
  (ReadFromEnv_user_identity_mandatory (listEnvutil [("GFAZPL_USER_IDENTITY_ENABLED", "true"),
      ("GFAZPL_USER_IDENTITY_ASSERTION", "username"),
      ("GFAZPL_USER_IDENTITY_TOKEN_URL", "https://login/token")]) "AzureCloud"
    ⟨false, by rfl⟩ ⟨false, by rfl⟩ (by rfl)).1.2
    (Or.inr ⟨"missing GFAZPL_USER_IDENTITY_CLIENT_ID", by rfl⟩)

/-- C11: when `ReadFromEnv` succeeds with user identity enabled, the settings hold a
token endpoint whose `TokenUrl` and `ClientId` are the values `envutil.Get` reads
from `GFAZPL_USER_IDENTITY_TOKEN_URL` and `GFAZPL_USER_IDENTITY_CLIENT_ID`, whose
`ClientSecret` is what `envutil.GetOrDefault` reads from
`GFAZPL_USER_IDENTITY_CLIENT_SECRET` with the default `""`, and whose
`UsernameAssertion` is true if and only if the value read from
`GFAZPL_USER_IDENTITY_ASSERTION` with the default `""` is exactly `username`; the
default `""` and the spellings `Username` and `USERNAME` give false. -/
theorem ReadFromEnv_user_identity_endpoint {E : Type} (envutil : Envutil E)
    (AzurePublic : String) (s : AzureSettings)
    (hs : ReadFromEnv envutil AzurePublic = (some s, none))
    (hen : s.UserIdentityEnabled = true) :
    ∃ ep : TokenEndpointSettings, s.UserIdentityTokenEndpoint = some ep ∧
      envutil.Get UserIdentityTokenURL = .ok ep.TokenUrl ∧
      envutil.Get UserIdentityClientID = .ok ep.ClientId ∧
      ep.ClientSecret = envutil.GetOrDefault UserIdentityClientSecret "" ∧
      (ep.UsernameAssertion = true ↔
        envutil.GetOrDefault UserIdentityAssertion "" = "username") ∧
      (envutil.GetOrDefault UserIdentityAssertion "" = "" → ep.UsernameAssertion = false) ∧
      (envutil.GetOrDefault UserIdentityAssertion "" = "Username" →
        ep.UsernameAssertion = false) ∧
      (envutil.GetOrDefault UserIdentityAssertion "" = "USERNAME" →
        ep.UsernameAssertion = false) := by
  unfold ReadFromEnv at hs
  cases hmi : envutil.GetBoolOrFallback ManagedIdentityEnabled
      fallbackManagedIdentityEnabled false with
  | error e => simp [hmi] at hs
  | ok bmi =>
    cases hwi : envutil.GetBoolOrDefault WorkloadIdentityEnabled false with
    | error e => simp [hmi, hwi] at hs
    | ok bwi =>
      cases hui : envutil.GetBoolOrDefault UserIdentityEnabled false with
      | error e => simp [hmi, hwi, hui] at hs
      | ok bui =>
        cases bui with
        | false =>
          simp only [hmi, hwi, hui] at hs
          cases bmi <;> cases bwi <;> simp at hs <;> subst hs <;> simp at hen
        | true =>
          cases hurl : envutil.Get UserIdentityTokenURL with
          | error e => simp [hmi, hwi, hui, hurl] at hs
          | ok tokenUrl =>
            cases hid : envutil.Get UserIdentityClientID with
            | error e => simp [hmi, hwi, hui, hurl, hid] at hs
            | ok clientId =>
              simp only [hmi, hwi, hui, hurl, hid] at hs
              simp at hs
              subst hs
              refine ⟨_, rfl, rfl, rfl, rfl, ?_, ?_, ?_, ?_⟩
              · simp
              · intro h; simp [h]
              · intro h; simp [h]
              · intro h; simp [h]

/-- Witness of C11: user identity enabled with token URL, client ID and the
assertion `username`, no client secret; the endpoint read holds the URL and the
client ID, an empty secret and the assertion flag. -/
theorem ReadFromEnv_user_identity_endpoint_witness :
    ∃ ep : TokenEndpointSettings,
      (ReadFromEnv (listEnvutil [("GFAZPL_USER_IDENTITY_ENABLED", "true"),
        ("GFAZPL_USER_IDENTITY_ASSERTION", "username"),
        ("GFAZPL_USER_IDENTITY_TOKEN_URL", "https://login/token"),
        ("GFAZPL_USER_IDENTITY_CLIENT_ID", "c1")]) "AzureCloud").1.bind
          (fun s => s.UserIdentityTokenEndpoint) = some ep ∧
      ep.TokenUrl = "https://login/token" ∧ ep.ClientId = "c1" ∧
      ep.ClientSecret = "" ∧ ep.UsernameAssertion = true :=
  match ReadFromEnv_user_identity_endpoint
    (listEnvutil [("GFAZPL_USER_IDENTITY_ENABLED", "true"),
      ("GFAZPL_USER_IDENTITY_ASSERTION", "username"),
      ("GFAZPL_USER_IDENTITY_TOKEN_URL", "https://login/token"),
      ("GFAZPL_USER_IDENTITY_CLIENT_ID", "c1")]) "AzureCloud"
    ⟨"AzureCloud", false, "", false, none, true,
      some ⟨"https://login/token", "c1", "", true⟩⟩ (by rfl) rfl with
  | ⟨ep, hep, _, _, _, _, _, _, _⟩ =>
    ⟨ep, by cases hep; exact ⟨by rfl, rfl, rfl, rfl, rfl⟩⟩

/-- C15: `ReadFromEnv` ignores the variables of a mechanism that is not enabled. In
every environment where it succeeds with settings `s`: if the managed-identity flag
reads false, `ManagedIdentityEnabled` is false and `ManagedIdentityClientId` is
empty; if `GFAZPL_WORKLOAD_IDENTITY_ENABLED` reads false (the default for an unset
flag), `WorkloadIdentityEnabled` is false and `WorkloadIdentitySettings` is nil; if
`GFAZPL_USER_IDENTITY_ENABLED` reads false, `UserIdentityEnabled` is false and
`UserIdentityTokenEndpoint` is nil; whatever the other helpers answer. Each nested
settings object is non-nil exactly when its `Enabled` field is true. -/
theorem ReadFromEnv_disabled_ignored {E : Type} (envutil : Envutil E)
    (AzurePublic : String) (s : AzureSettings)
    (hs : ReadFromEnv envutil AzurePublic = (some s, none)) :
    (envutil.GetBoolOrFallback ManagedIdentityEnabled fallbackManagedIdentityEnabled false =
        .ok false → s.ManagedIdentityEnabled = false ∧ s.ManagedIdentityClientId = "") ∧
    (envutil.GetBoolOrDefault WorkloadIdentityEnabled false = .ok false →
      s.WorkloadIdentityEnabled = false ∧ s.WorkloadIdentitySettings = none) ∧
    (envutil.GetBoolOrDefault UserIdentityEnabled false = .ok false →
      s.UserIdentityEnabled = false ∧ s.UserIdentityTokenEndpoint = none) ∧
    (s.WorkloadIdentitySettings ≠ none ↔ s.WorkloadIdentityEnabled = true) ∧
    (s.UserIdentityTokenEndpoint ≠ none ↔ s.UserIdentityEnabled = true) := by
  unfold ReadFromEnv at hs
  cases hmi : envutil.GetBoolOrFallback ManagedIdentityEnabled
      fallbackManagedIdentityEnabled false with
  | error e => simp [hmi] at hs
  | ok bmi =>
    cases hwi : envutil.GetBoolOrDefault WorkloadIdentityEnabled false with
    | error e => simp [hmi, hwi] at hs
    | ok bwi =>
      cases hui : envutil.GetBoolOrDefault UserIdentityEnabled false with
      | error e => simp [hmi, hwi, hui] at hs
      | ok bui =>
        cases bui with
        | false =>
          simp only [hmi, hwi, hui] at hs
          cases bmi <;> cases bwi <;> simp at hs <;> subst hs <;> simp
        | true =>
          cases hurl : envutil.Get UserIdentityTokenURL with
          | error e => simp [hmi, hwi, hui, hurl] at hs
          | ok tokenUrl =>
            cases hid : envutil.Get UserIdentityClientID with
            | error e => simp [hmi, hwi, hui, hurl, hid] at hs
            | ok clientId =>
              simp only [hmi, hwi, hui, hurl, hid] at hs
              cases bmi <;> cases bwi <;> simp at hs <;> subst hs <;> simp

/-- Witness of C15: managed identity switched off while its client ID is set,
workload identity unset while its tenant ID is set; the settings read hold neither
the client ID nor workload-identity settings. -/
theorem ReadFromEnv_disabled_ignored_witness :
    ∃ s : AzureSettings,
      ReadFromEnv (listEnvutil [("GFAZPL_MANAGED_IDENTITY_ENABLED", "false"),
        ("GFAZPL_MANAGED_IDENTITY_CLIENT_ID", "mi-1"),
        ("GFAZPL_WORKLOAD_IDENTITY_TENANT_ID", "t1")]) "AzureCloud" = (some s, none) ∧
      s.ManagedIdentityClientId = "" ∧ s.WorkloadIdentitySettings = none :=
  ⟨⟨"AzureCloud", false, "", false, none, false, none⟩, by rfl,
    ((ReadFromEnv_disabled_ignored
      (listEnvutil [("GFAZPL_MANAGED_IDENTITY_ENABLED", "false"),
        ("GFAZPL_MANAGED_IDENTITY_CLIENT_ID", "mi-1"),
        ("GFAZPL_WORKLOAD_IDENTITY_TENANT_ID", "t1")]) "AzureCloud"
      ⟨"AzureCloud", false, "", false, none, false, none⟩ (by rfl)).1 (by rfl)).2,
    ((ReadFromEnv_disabled_ignored
      (listEnvutil [("GFAZPL_MANAGED_IDENTITY_ENABLED", "false"),
        ("GFAZPL_MANAGED_IDENTITY_CLIENT_ID", "mi-1"),
        ("GFAZPL_WORKLOAD_IDENTITY_TENANT_ID", "t1")]) "AzureCloud"
      ⟨"AzureCloud", false, "", false, none, false, none⟩ (by rfl)).2.1 (by rfl)).2⟩

/-- C16: `ReadFromEnv` is all-or-nothing: it returns either settings and no error,
or an error and nil settings. If the managed-identity flag does not parse, the
result is that error wrapped, whatever the other variables hold; if the
workload-identity or the user-identity flag does not parse, the result is an error;
and the flags are checked in the order managed identity, workload identity, user
identity: the error returned is the one of the first flag that does not parse. -/
theorem ReadFromEnv_all_or_nothing {E : Type} (envutil : Envutil E) (AzurePublic : String) :
    ((∃ s, ReadFromEnv envutil AzurePublic = (some s, none)) ∨
      (∃ err, ReadFromEnv envutil AzurePublic = (none, some err))) ∧
    (∀ e, envutil.GetBoolOrFallback ManagedIdentityEnabled fallbackManagedIdentityEnabled
        false = .error e →
      ReadFromEnv envutil AzurePublic =
        (none, some (.Errorf "invalid Azure configuration: %w" e))) ∧
    (∀ e, envutil.GetBoolOrDefault WorkloadIdentityEnabled false = .error e →
      ∃ err, ReadFromEnv envutil AzurePublic = (none, some err)) ∧
    (∀ e, envutil.GetBoolOrDefault UserIdentityEnabled false = .error e →
      ∃ err, ReadFromEnv envutil AzurePublic = (none, some err)) ∧
    (∀ b e, envutil.GetBoolOrFallback ManagedIdentityEnabled fallbackManagedIdentityEnabled
        false = .ok b →
      envutil.GetBoolOrDefault WorkloadIdentityEnabled false = .error e →
      ReadFromEnv envutil AzurePublic =
        (none, some (.Errorf "invalid Azure configuration: %w" e))) ∧
    (∀ b b₁ e, envutil.GetBoolOrFallback ManagedIdentityEnabled fallbackManagedIdentityEnabled
        false = .ok b →
      envutil.GetBoolOrDefault WorkloadIdentityEnabled false = .ok b₁ →
      envutil.GetBoolOrDefault UserIdentityEnabled false = .error e →
      ReadFromEnv envutil AzurePublic =
        (none, some (.Errorf "invalid Azure configuration: %w" e))) := by
  unfold ReadFromEnv
  cases hmi : envutil.GetBoolOrFallback ManagedIdentityEnabled
      fallbackManagedIdentityEnabled false with
  | error e => simp
  | ok bmi =>
    cases hwi : envutil.GetBoolOrDefault WorkloadIdentityEnabled false with
    | error e => simp
    | ok bwi =>
      cases hui : envutil.GetBoolOrDefault UserIdentityEnabled false with
      | error e => simp
      | ok bui =>
        cases bui with
        | false => simp
        | true =>
          cases hurl : envutil.Get UserIdentityTokenURL with
          | error e => simp
          | ok tokenUrl =>
            cases hid : envutil.Get UserIdentityClientID with
            | error e => simp
            | ok clientId => simp

/-- Witness of C16: the managed-identity flag holds `maybe`; the error is returned
although the later flags are valid. -/
theorem ReadFromEnv_all_or_nothing_witness :
    ReadFromEnv (listEnvutil [("GFAZPL_MANAGED_IDENTITY_ENABLED", "maybe"),
        ("GFAZPL_WORKLOAD_IDENTITY_ENABLED", "true")]) "AzureCloud" =
      (none, some (.Errorf "invalid Azure configuration: %w"
        "invalid GFAZPL_MANAGED_IDENTITY_ENABLED")) :=
  (ReadFromEnv_all_or_nothing (listEnvutil [("GFAZPL_MANAGED_IDENTITY_ENABLED", "maybe"),
      ("GFAZPL_WORKLOAD_IDENTITY_ENABLED", "true")]) "AzureCloud").2.1
    "invalid GFAZPL_MANAGED_IDENTITY_ENABLED" (by rfl)

/-- C14: `WriteToEnvStr` never emits configuration of a disabled mechanism. For nil
settings the result is empty. For every settings value, every emitted entry has the
form `NAME=value` with a non-empty value; an entry whose name starts with
`GFAZPL_MANAGED_IDENTITY_`, `GFAZPL_WORKLOAD_IDENTITY_` or `GFAZPL_USER_IDENTITY_`
(the client secret among them) is emitted only if the `Enabled` field of that
mechanism is true, whatever the other fields hold; and the names of the emitted
entries follow the fixed order cloud, managed identity, workload identity, user
identity, each name occurring at most once. -/
theorem WriteToEnvStr_entries :
    WriteToEnvStr none = [] ∧
    ∀ s : AzureSettings,
      (∀ entry ∈ WriteToEnvStr (some s),
        entry = entryName entry ++ "=" ++ entryValue entry ∧
        entryValue entry ≠ "" ∧
        (startsWith (entryName entry) "GFAZPL_MANAGED_IDENTITY_" = true →
          s.ManagedIdentityEnabled = true) ∧
        (startsWith (entryName entry) "GFAZPL_WORKLOAD_IDENTITY_" = true →
          s.WorkloadIdentityEnabled = true) ∧
        (startsWith (entryName entry) "GFAZPL_USER_IDENTITY_" = true →
          s.UserIdentityEnabled = true)) ∧
      ((WriteToEnvStr (some s)).map entryName).Sublist writtenNames ∧
      ((WriteToEnvStr (some s)).map entryName).Nodup := by
  refine ⟨rfl, fun s => ?_⟩
  have hsub : ((WriteToEnvStr (some s)).map entryName).Sublist writtenNames := by
    rw [WriteToEnvStr_eq_slotEntries, ← writtenSlots_fst s]
    exact slotEntries_names _ (writtenSlots_names s)
  refine ⟨?_, hsub, hsub.nodup writtenNames_nodup⟩
  intro entry hentry
  rw [WriteToEnvStr_eq_slotEntries] at hentry
  obtain ⟨name, value, hm, he⟩ := mem_slotEntries _ _ hentry
  obtain ⟨hn, hv⟩ := entry_parts name value (writtenSlots_names s _ hm)
  obtain ⟨hval, hmi, hwi, hui⟩ := writtenSlots_value s name value hm
  have hname : name ∈ writtenNames := by
    rw [← writtenSlots_fst s]
    exact List.mem_map_of_mem Prod.fst hm
  have tmi : ∀ n ∈ writtenNames, startsWith n "GFAZPL_MANAGED_IDENTITY_" = true →
      n ∈ [ManagedIdentityEnabled, ManagedIdentityClientID] := by decide
  have twi : ∀ n ∈ writtenNames, startsWith n "GFAZPL_WORKLOAD_IDENTITY_" = true →
      n ∈ [WorkloadIdentityEnabled, WorkloadIdentityTenantID, WorkloadIdentityClientID,
        WorkloadIdentityTokenFile] := by decide
  have tui : ∀ n ∈ writtenNames, startsWith n "GFAZPL_USER_IDENTITY_" = true →
      n ∈ [UserIdentityEnabled, UserIdentityTokenURL, UserIdentityClientID,
        UserIdentityClientSecret, UserIdentityAssertion] := by decide
  subst he
  rw [hn, hv]
  exact ⟨rfl, hval, fun h => hmi (tmi name hname h), fun h => hwi (twi name hname h),
    fun h => hui (tui name hname h)⟩

/-- Witness of C14: settings with every mechanism disabled and all their fields
populated; only the cloud is emitted. -/
theorem WriteToEnvStr_entries_witness :
    WriteToEnvStr (some ⟨"AzureCloud", false, "mi-1", false, some ⟨"t1", "c1", "/f"⟩, false,
        some ⟨"https://login/token", "c2", "secret", true⟩⟩) = ["GFAZPL_AZURE_CLOUD=AzureCloud"] ∧
      ((WriteToEnvStr (some ⟨"AzureCloud", false, "mi-1", false, some ⟨"t1", "c1", "/f"⟩, false,
        some ⟨"https://login/token", "c2", "secret", true⟩⟩)).map entryName).Nodup :=
  ⟨by decide, ((WriteToEnvStr_entries).2 ⟨"AzureCloud", false, "mi-1", false,
    some ⟨"t1", "c1", "/f"⟩, false, some ⟨"https://login/token", "c2", "secret", true⟩⟩).2.2⟩

/-- In the model of the helpers, `GetOrDefault` with the default `""` is
`os.Getenv`. -/
theorem envutilOf_GetOrDefault (env : String → Option String) (parse : String → Option Bool)
    (key : String) : (envutilOf env parse).GetOrDefault key "" = Getenv env key := by
  simp only [envutilOf]
  by_cases h : Getenv env key = "" <;> simp [h]

/-- In the model of the helpers, `GetOrFallback` answers the variable when `Get`
finds it, else the fallback variable when `Get` finds that, else the default. -/
theorem envutilOf_GetOrFallback (env : String → Option String)
    (parse : String → Option Bool) (key fallbackKey d : String) :
    (∀ v, (envutilOf env parse).Get key = .ok v →
      (envutilOf env parse).GetOrFallback key fallbackKey d = v) ∧
    (∀ e v, (envutilOf env parse).Get key = .error e →
      (envutilOf env parse).Get fallbackKey = .ok v →
        (envutilOf env parse).GetOrFallback key fallbackKey d = v) ∧
    (∀ e e₂, (envutilOf env parse).Get key = .error e →
      (envutilOf env parse).Get fallbackKey = .error e₂ →
        (envutilOf env parse).GetOrFallback key fallbackKey d = d) := by
  simp only [envutilOf]
  by_cases hk : Getenv env key = "" <;> by_cases hf : Getenv env fallbackKey = "" <;>
    simp [hk, hf]

/-- In the model of the helpers, `GetBoolOrFallback` reads the variable when `Get`
finds it and the fallback variable otherwise. -/
theorem envutilOf_GetBoolOrFallback (env : String → Option String)
    (parse : String → Option Bool) (key fallbackKey : String) (d : Bool) :
    (∀ v, (envutilOf env parse).Get key = .ok v →
      (envutilOf env parse).GetBoolOrFallback key fallbackKey d =
        (envutilOf env parse).GetBoolOrDefault key d) ∧
    (∀ e, (envutilOf env parse).Get key = .error e →
      (envutilOf env parse).GetBoolOrFallback key fallbackKey d =
        (envutilOf env parse).GetBoolOrDefault fallbackKey d) := by
  simp only [envutilOf]
  by_cases hk : Getenv env key = "" <;> by_cases hf : Getenv env fallbackKey = "" <;>
    simp [hk, hf]

/-- C12: `ReadFromEnv` honours the variables from before Grafana 9 as fallbacks
only. For every implementation of the helpers, when `ReadFromEnv` succeeds: `Cloud`
is what `GetOrFallback` answers for `GFAZPL_AZURE_CLOUD` with the fallback
`AZURE_CLOUD` and the default `AzurePublic`; the managed-identity flag is what
`GetBoolOrFallback` answers for `GFAZPL_MANAGED_IDENTITY_ENABLED` with the fallback
`AZURE_MANAGED_IDENTITY_ENABLED`, and its client ID what `GetOrFallback` answers for
`GFAZPL_MANAGED_IDENTITY_CLIENT_ID` with the fallback
`AZURE_MANAGED_IDENTITY_CLIENT_ID`; the workload-identity and user-identity settings
are read from their `GFAZPL_` variables through helpers that take no fallback, and
do not depend on what the helpers with a fallback answer. A variable being set is
`envutil.Get` finding it: when `GetOrFallback` answers the variable if set, else the
fallback variable if set, else the default, then `Cloud` is the value of
`GFAZPL_AZURE_CLOUD` when set, else that of `AZURE_CLOUD` when set, else
`AzurePublic`, and likewise the client ID with the default `""`; when
`GetBoolOrFallback` reads the variable if it is set and the fallback variable
otherwise, the managed-identity flag is read from
`GFAZPL_MANAGED_IDENTITY_ENABLED` if set and from `AZURE_MANAGED_IDENTITY_ENABLED`
otherwise. -/
theorem ReadFromEnv_fallbacks {E : Type} (envutil : Envutil E) (AzurePublic : String)
    (s : AzureSettings) (hs : ReadFromEnv envutil AzurePublic = (some s, none)) :
    s.Cloud = envutil.GetOrFallback AzureCloud fallbackAzureCloud AzurePublic ∧
    envutil.GetBoolOrFallback ManagedIdentityEnabled fallbackManagedIdentityEnabled false =
      .ok s.ManagedIdentityEnabled ∧
    (s.ManagedIdentityEnabled = true → s.ManagedIdentityClientId =
      envutil.GetOrFallback ManagedIdentityClientID fallbackManagedIdentityClientId "") ∧
    envutil.GetBoolOrDefault WorkloadIdentityEnabled false = .ok s.WorkloadIdentityEnabled ∧
    (s.WorkloadIdentityEnabled = true → s.WorkloadIdentitySettings =
      some ⟨envutil.GetOrDefault WorkloadIdentityTenantID "",
        envutil.GetOrDefault WorkloadIdentityClientID "",
        envutil.GetOrDefault WorkloadIdentityTokenFile ""⟩) ∧
    envutil.GetBoolOrDefault UserIdentityEnabled false = .ok s.UserIdentityEnabled ∧
    (s.UserIdentityEnabled = true → ∃ tokenUrl clientId,
      envutil.Get UserIdentityTokenURL = .ok tokenUrl ∧
      envutil.Get UserIdentityClientID = .ok clientId ∧
      s.UserIdentityTokenEndpoint =
        some ⟨tokenUrl, clientId, envutil.GetOrDefault UserIdentityClientSecret "",
          envutil.GetOrDefault UserIdentityAssertion "" == "username"⟩) ∧
    (∀ (envutil₂ : Envutil E) (AzurePublic₂ : String) (s₂ : AzureSettings),
      envutil₂.Get = envutil.Get → envutil₂.GetOrDefault = envutil.GetOrDefault →
      envutil₂.GetBoolOrDefault = envutil.GetBoolOrDefault →
      ReadFromEnv envutil₂ AzurePublic₂ = (some s₂, none) →
        s₂.WorkloadIdentityEnabled = s.WorkloadIdentityEnabled ∧
        s₂.WorkloadIdentitySettings = s.WorkloadIdentitySettings ∧
        s₂.UserIdentityEnabled = s.UserIdentityEnabled ∧
        s₂.UserIdentityTokenEndpoint = s.UserIdentityTokenEndpoint) ∧
    ((∀ key fallbackKey d v, envutil.Get key = .ok v →
        envutil.GetOrFallback key fallbackKey d = v) →
      (∀ key fallbackKey d e v, envutil.Get key = .error e →
        envutil.Get fallbackKey = .ok v → envutil.GetOrFallback key fallbackKey d = v) →
      (∀ key fallbackKey d e e₂, envutil.Get key = .error e →
        envutil.Get fallbackKey = .error e₂ → envutil.GetOrFallback key fallbackKey d = d) →
      (∀ v, envutil.Get AzureCloud = .ok v → s.Cloud = v) ∧
      (∀ e v, envutil.Get AzureCloud = .error e → envutil.Get fallbackAzureCloud = .ok v →
        s.Cloud = v) ∧
      (∀ e e₂, envutil.Get AzureCloud = .error e →
        envutil.Get fallbackAzureCloud = .error e₂ → s.Cloud = AzurePublic) ∧
      (s.ManagedIdentityEnabled = true →
        (∀ v, envutil.Get ManagedIdentityClientID = .ok v → s.ManagedIdentityClientId = v) ∧
        (∀ e v, envutil.Get ManagedIdentityClientID = .error e →
          envutil.Get fallbackManagedIdentityClientId = .ok v →
            s.ManagedIdentityClientId = v) ∧
        (∀ e e₂, envutil.Get ManagedIdentityClientID = .error e →
          envutil.Get fallbackManagedIdentityClientId = .error e₂ →
            s.ManagedIdentityClientId = ""))) ∧
    ((∀ key fallbackKey d v, envutil.Get key = .ok v →
        envutil.GetBoolOrFallback key fallbackKey d = envutil.GetBoolOrDefault key d) →
      (∀ key fallbackKey d e, envutil.Get key = .error e →
        envutil.GetBoolOrFallback key fallbackKey d =
          envutil.GetBoolOrDefault fallbackKey d) →
      (∀ v, envutil.Get ManagedIdentityEnabled = .ok v →
        envutil.GetBoolOrDefault ManagedIdentityEnabled false = .ok s.ManagedIdentityEnabled) ∧
      (∀ e, envutil.Get ManagedIdentityEnabled = .error e →
        envutil.GetBoolOrDefault fallbackManagedIdentityEnabled false =
          .ok s.ManagedIdentityEnabled)) := by
  obtain ⟨hcloud, hmi, hmiId, hwi, hwiS, hui, huiE⟩ := ReadFromEnv_success _ _ s hs
  refine ⟨hcloud, hmi, hmiId, hwi, hwiS, hui, huiE, ?_, ?_, ?_⟩
  · intro envutil₂ AzurePublic₂ s₂ hGet hGoD hGbD hs₂
    obtain ⟨_, _, _, hwi₂, hwiS₂, hui₂, huiE₂⟩ := ReadFromEnv_success _ _ s₂ hs₂
    obtain ⟨hwiN, huiN⟩ := ReadFromEnv_nested_nil envutil AzurePublic s hs
    obtain ⟨hwiN₂, huiN₂⟩ := ReadFromEnv_nested_nil envutil₂ AzurePublic₂ s₂ hs₂
    rw [hGbD, hwi] at hwi₂
    rw [hGbD, hui] at hui₂
    have ewi : s₂.WorkloadIdentityEnabled = s.WorkloadIdentityEnabled :=
      (Except.ok.inj hwi₂).symm
    have eui : s₂.UserIdentityEnabled = s.UserIdentityEnabled := (Except.ok.inj hui₂).symm
    refine ⟨ewi, ?_, eui, ?_⟩
    · cases hb : s.WorkloadIdentityEnabled with
      | false => rw [hwiN hb, hwiN₂ (ewi.trans hb)]
      | true => rw [hwiS hb, hwiS₂ (ewi.trans hb), hGoD]
    · cases hb : s.UserIdentityEnabled with
      | false => rw [huiN hb, huiN₂ (eui.trans hb)]
      | true =>
        obtain ⟨u, c, h1, h2, h3⟩ := huiE hb
        obtain ⟨u₂, c₂, k1, k2, k3⟩ := huiE₂ (eui.trans hb)
        rw [hGet, h1] at k1
        rw [hGet, h2] at k2
        rw [h3, k3, hGoD, ← Except.ok.inj k1, ← Except.ok.inj k2]
  · intro h1 h2 h3
    refine ⟨?_, ?_, ?_, ?_⟩
    · intro v hv
      rw [hcloud, h1 _ _ _ v hv]
    · intro e v he hv
      rw [hcloud, h2 _ _ _ e v he hv]
    · intro e e₂ he he₂
      rw [hcloud, h3 _ _ _ e e₂ he he₂]
    · intro hen
      refine ⟨?_, ?_, ?_⟩
      · intro v hv
        rw [hmiId hen, h1 _ _ _ v hv]
      · intro e v he hv
        rw [hmiId hen, h2 _ _ _ e v he hv]
      · intro e e₂ he he₂
        rw [hmiId hen, h3 _ _ _ e e₂ he he₂]
  · intro h1 h2
    constructor
    · intro v hv
      rw [← h1 _ fallbackManagedIdentityEnabled _ v hv]
      exact hmi
    · intro e he
      rw [← h2 ManagedIdentityEnabled _ _ e he]
      exact hmi

/-- Witness of C12: `GFAZPL_AZURE_CLOUD` is set to the empty string and `AZURE_CLOUD`
to a cloud, only the old flag is set, and both variables for the client ID are set;
the cloud and the flag come from the old variables, the client ID from the new
one. -/
theorem ReadFromEnv_fallbacks_witness :
    ∃ s : AzureSettings,
      ReadFromEnv (envutilOf (envOfEntries ["GFAZPL_AZURE_CLOUD=",
        "AZURE_CLOUD=AzureChinaCloud", "AZURE_MANAGED_IDENTITY_ENABLED=true",
        "GFAZPL_MANAGED_IDENTITY_CLIENT_ID=new",
        "AZURE_MANAGED_IDENTITY_CLIENT_ID=old"]) ParseBool) "AzureCloud" = (some s, none) ∧
      s.Cloud = "AzureChinaCloud" ∧ s.ManagedIdentityEnabled = true ∧
      s.ManagedIdentityClientId = "new" :=
  ⟨⟨"AzureChinaCloud", true, "new", false, none, false, none⟩, by rfl,
    ((ReadFromEnv_fallbacks (envutilOf (envOfEntries ["GFAZPL_AZURE_CLOUD=",
        "AZURE_CLOUD=AzureChinaCloud", "AZURE_MANAGED_IDENTITY_ENABLED=true",
        "GFAZPL_MANAGED_IDENTITY_CLIENT_ID=new",
        "AZURE_MANAGED_IDENTITY_CLIENT_ID=old"]) ParseBool) "AzureCloud"
      ⟨"AzureChinaCloud", true, "new", false, none, false, none⟩
      (by rfl)).2.2.2.2.2.2.2.2.1
        (fun key fallbackKey d => (envutilOf_GetOrFallback _ _ key fallbackKey d).1)
        (fun key fallbackKey d => (envutilOf_GetOrFallback _ _ key fallbackKey d).2.1)
        (fun key fallbackKey d => (envutilOf_GetOrFallback _ _ key fallbackKey d).2.2)).2.1
      (EnvError.missing "GFAZPL_AZURE_CLOUD") "AzureChinaCloud" (by rfl) (by rfl),
    rfl,
    (((ReadFromEnv_fallbacks (envutilOf (envOfEntries ["GFAZPL_AZURE_CLOUD=",
        "AZURE_CLOUD=AzureChinaCloud", "AZURE_MANAGED_IDENTITY_ENABLED=true",
        "GFAZPL_MANAGED_IDENTITY_CLIENT_ID=new",
        "AZURE_MANAGED_IDENTITY_CLIENT_ID=old"]) ParseBool) "AzureCloud"
      ⟨"AzureChinaCloud", true, "new", false, none, false, none⟩
      (by rfl)).2.2.2.2.2.2.2.2.1
        (fun key fallbackKey d => (envutilOf_GetOrFallback _ _ key fallbackKey d).1)
        (fun key fallbackKey d => (envutilOf_GetOrFallback _ _ key fallbackKey d).2.1)
        (fun key fallbackKey d => (envutilOf_GetOrFallback _ _ key fallbackKey d).2.2)).2.2.2
      rfl).1 "new" (by rfl)⟩

/-- The value of a field that is written only when it is not empty, read back with
the default `""`. -/
theorem nonEmpty_getD (x : String) : (nonEmpty x).getD "" = x := by
  by_cases h : x = "" <;> simp [nonEmpty, h]

/-- A field that is not empty is written. -/
theorem nonEmpty_eq_some (x : String) (h : ¬x = "") : nonEmpty x = some x := by
  simp [nonEmpty, h]

/-- The environment of the entries `WriteToEnvStr` emits, variable by variable. -/
theorem envOfEntries_WriteToEnvStr (s : AzureSettings) (name : String) :
    envOfEntries (WriteToEnvStr (some s)) name = ((writtenSlots s).lookup name).join := by
  rw [WriteToEnvStr_eq_slotEntries]
  exact envOfEntries_slotEntries _ (writtenSlots_names s)
    (by rw [writtenSlots_fst]; exact writtenNames_nodup) name

/-- C13: round trip of settings through the environment. For every settings value
`s` in canonical form (`Cloud` not empty; `ManagedIdentityClientId` empty unless
`ManagedIdentityEnabled`; `WorkloadIdentitySettings` non-nil exactly when
`WorkloadIdentityEnabled`; `UserIdentityTokenEndpoint` non-nil exactly when
`UserIdentityEnabled`, and then with `TokenUrl` and `ClientId` not empty),
`ReadFromEnv` on the environment that contains exactly the entries of
`WriteToEnvStr(s)`, with helpers as in the model and a parser that reads `true` as
true, succeeds and returns `s`. -/
theorem ReadFromEnv_WriteToEnvStr (parse : String → Option Bool) (AzurePublic : String)
    (s : AzureSettings) (hparse : parse "true" = some true)
    (hcloud : s.Cloud ≠ "")
    (hmi : s.ManagedIdentityEnabled = false → s.ManagedIdentityClientId = "")
    (hwi : s.WorkloadIdentitySettings ≠ none ↔ s.WorkloadIdentityEnabled = true)
    (hui : s.UserIdentityTokenEndpoint ≠ none ↔ s.UserIdentityEnabled = true)
    (hep : ∀ ep, s.UserIdentityTokenEndpoint = some ep → ep.TokenUrl ≠ "" ∧ ep.ClientId ≠ "") :
    ReadFromEnv (envutilOf (envOfEntries (WriteToEnvStr (some s))) parse) AzurePublic =
      (some s, none) := by
  have hlook := envOfEntries_WriteToEnvStr s
  generalize envOfEntries (WriteToEnvStr (some s)) = env at hlook
  have e1 : env AzureCloud = nonEmpty s.Cloud := by rw [hlook]; rfl
  have e2 : env fallbackAzureCloud = none := by rw [hlook]; rfl
  have e3 : env ManagedIdentityEnabled =
      if s.ManagedIdentityEnabled then some "true" else none := by rw [hlook]; rfl
  have e4 : env fallbackManagedIdentityEnabled = none := by rw [hlook]; rfl
  have e5 : env ManagedIdentityClientID =
      if s.ManagedIdentityEnabled then nonEmpty s.ManagedIdentityClientId else none := by
    rw [hlook]; rfl
  have e6 : env fallbackManagedIdentityClientId = none := by rw [hlook]; rfl
  have e7 : env WorkloadIdentityEnabled =
      if s.WorkloadIdentityEnabled then some "true" else none := by rw [hlook]; rfl
  have e8 : env WorkloadIdentityTenantID =
      if s.WorkloadIdentityEnabled then
        s.WorkloadIdentitySettings.bind (fun wi => nonEmpty wi.TenantId) else none := by
    rw [hlook]; rfl
  have e9 : env WorkloadIdentityClientID =
      if s.WorkloadIdentityEnabled then
        s.WorkloadIdentitySettings.bind (fun wi => nonEmpty wi.ClientId) else none := by
    rw [hlook]; rfl
  have e10 : env WorkloadIdentityTokenFile =
      if s.WorkloadIdentityEnabled then
        s.WorkloadIdentitySettings.bind (fun wi => nonEmpty wi.TokenFile) else none := by
    rw [hlook]; rfl
  have e11 : env UserIdentityEnabled =
      if s.UserIdentityEnabled then some "true" else none := by rw [hlook]; rfl
  have e12 : env UserIdentityTokenURL =
      if s.UserIdentityEnabled then
        s.UserIdentityTokenEndpoint.bind (fun ep => nonEmpty ep.TokenUrl) else none := by
    rw [hlook]; rfl
  have e13 : env UserIdentityClientID =
      if s.UserIdentityEnabled then
        s.UserIdentityTokenEndpoint.bind (fun ep => nonEmpty ep.ClientId) else none := by
    rw [hlook]; rfl
  have e14 : env UserIdentityClientSecret =
      if s.UserIdentityEnabled then
        s.UserIdentityTokenEndpoint.bind (fun ep => nonEmpty ep.ClientSecret) else none := by
    rw [hlook]; rfl
  have e15 : env UserIdentityAssertion =
      if s.UserIdentityEnabled then
        s.UserIdentityTokenEndpoint.bind
          (fun ep => if ep.UsernameAssertion then some "username" else none)
      else none := by rw [hlook]; rfl
  clear hlook
  obtain ⟨cloud, mi, miId, wi, wiS, ui, uiE⟩ := s
  simp only [ne_eq] at hcloud hmi hwi hui hep e1 e2 e3 e4 e5 e6 e7 e8 e9 e10 e11 e12 e13 e14 e15
  have hc : nonEmpty cloud = some cloud := nonEmpty_eq_some cloud hcloud
  rw [hc] at e1
  simp only [ReadFromEnv, envutilOf_GetOrDefault]
  rcases uiE with _ | ⟨url, id, secret, _ | _⟩ <;> rcases wiS with _ | ⟨t, c, f⟩ <;>
    cases mi <;> cases wi <;> cases ui <;>
    simp at hmi hwi hui hep <;>
    simp [envutilOf, Getenv, e1, e2, e3, e4, e5, e6, e7, e8, e9, e10, e11, e12, e13,
      e14, e15, hparse, hmi, hcloud, nonEmpty_getD, nonEmpty_eq_some, hep] <;>
    try (intro h; exact h.symm)

/-- Witness of C13: settings with managed identity, workload identity (tenant and
token file) and user identity (no secret, username assertion) are read back from the
entries written for them. -/
theorem ReadFromEnv_WriteToEnvStr_witness :
    ReadFromEnv (envutilOf (envOfEntries (WriteToEnvStr (some
        ⟨"AzureChinaCloud", true, "mi-1", true, some ⟨"t1", "", "/f"⟩, true,
          some ⟨"https://login/token", "c2", "", true⟩⟩))) ParseBool) "AzureCloud" =
      (some ⟨"AzureChinaCloud", true, "mi-1", true, some ⟨"t1", "", "/f"⟩, true,
          some ⟨"https://login/token", "c2", "", true⟩⟩, none) :=
  ReadFromEnv_WriteToEnvStr ParseBool "AzureCloud"
    ⟨"AzureChinaCloud", true, "mi-1", true, some ⟨"t1", "", "/f"⟩, true,
      some ⟨"https://login/token", "c2", "", true⟩⟩
    (by decide) (by decide) (by decide) (by decide) (by decide)
    (fun ep h => by cases h; exact ⟨by decide, by decide⟩)

end azsettings
